import Mathlib

/-!
Verification development for the dcal rate-conversion pipeline.

The embedding below follows `src/decoder/audio_manager.rs` (the rate
converter and its state machine) and `examples/queue.rs` (the playback
orchestrator loop).  Samples are embedded as `Int`; the pipeline in the
source is generic over the sample type and only needs zero values and
copying.  External collaborators (the rubato FFT resampler, the codec
decoder, the audio output device) are modelled at their interface
boundaries.  Components of the repository whose source is not available
(the channel buffer, the interleaving helper, the decoder front end) are
modelled from their documented contracts and marked as such.
-/

namespace Dcal

/-- PCM sample value; the source is generic over the sample type, which
only needs zero/silence values and copying. -/
abbrev Sample := Int

/-- Modelled from the spec: the decode error taxonomy of the Decode
Source contract — `resetRequired` is the recoverable condition where the
decoder must be rebuilt for the same input; `decodeFailed` stands for any
other (fatal) decode error. -/
inductive DecoderError where
  | resetRequired
  | decodeFailed
deriving DecidableEq, Repr

/-- Modelled from the spec: the Decode Source (`Decoder<T>` in the
source, whose own implementation is external to the core).  It exposes a
declared sample rate, a current decoded interleaved chunk, and a script
of future `next()` results: each entry is either a decoded chunk or an
error; an exhausted script is end-of-stream (`Ok(None)`). -/
structure Decoder where
  sample_rate : Nat
  cur : List Sample
  upcoming : List (Except DecoderError (List Sample))

/-- `Decoder::current`: the current decoded chunk. -/
def Decoder.current (d : Decoder) : List Sample := d.cur

/-- `Decoder::next`: advance to the next chunk.  `Ok(None)` signals end
of stream; errors are returned without consuming the script. -/
def Decoder.next (d : Decoder) : Decoder × Except DecoderError (Option (List Sample)) :=
  match d.upcoming with
  | [] => (d, Except.ok none)
  | Except.error e :: _ => (d, Except.error e)
  | Except.ok c :: rest => ({ d with cur := c, upcoming := rest }, Except.ok (some c))

/-- Modelled from the spec: the Sample Accumulator (`ChannelBuffer<T>`,
whose source file is not available).  A fixed capacity of
`n_frames × channels` samples laid out as one region per channel, plus a
write cursor `position` counting interleaved samples written. -/
structure ChannelBuffer where
  n_frames : Nat
  channels : Nat
  data : List (List Sample)
  position : Nat

/-- Total sample capacity of the accumulator. -/
def ChannelBuffer.capacity (b : ChannelBuffer) : Nat := b.n_frames * b.channels

/-- Write one interleaved sample at the cursor, demultiplexing it into
channel `position % channels`, frame `position / channels`. -/
def ChannelBuffer.writeSample (b : ChannelBuffer) (s : Sample) : ChannelBuffer :=
  let c := b.position % b.channels
  let f := b.position / b.channels
  { b with data := b.data.set c ((b.data.getD c []).set f s), position := b.position + 1 }

/-- Modelled from the spec: `fill_from_slice` copies as many leading
samples of `src` as fit into remaining capacity and returns the buffer
together with the number of samples consumed. -/
def ChannelBuffer.fill_from_slice (b : ChannelBuffer) (src : List Sample) :
    ChannelBuffer × Nat :=
  let consumed := min src.length (b.capacity - b.position)
  ((src.take consumed).foldl ChannelBuffer.writeSample b, consumed)

/-- Modelled from the spec: `is_full() ⟺ position == capacity`. -/
def ChannelBuffer.is_full (b : ChannelBuffer) : Bool := b.position == b.capacity

/-- Modelled from the spec: `reset()` sets the cursor to 0 and retains
storage. -/
def ChannelBuffer.reset (b : ChannelBuffer) : ChannelBuffer := { b with position := 0 }

/-- Modelled from the spec: `silence_remainder()` writes zero samples
into the unfilled tail of every channel without moving the cursor. -/
def ChannelBuffer.silence_remainder (b : ChannelBuffer) : ChannelBuffer :=
  let filled := (List.replicate (b.capacity - b.position) (0 : Sample)).foldl
    ChannelBuffer.writeSample b
  { filled with position := b.position }

/-- Modelled from the spec: `inner()` exposes the per-channel regions. -/
def ChannelBuffer.inner (b : ChannelBuffer) : List (List Sample) := b.data

/-- A fresh accumulator sized for one resampler input block. -/
def ChannelBuffer.new (n_frames channels : Nat) : ChannelBuffer :=
  { n_frames := n_frames, channels := channels,
    data := List.replicate channels (List.replicate n_frames 0), position := 0 }

/-- Modelled from the spec: the interleaving helper
(`fill_from_deinterleaved` of `VecExt`, whose source file is not
available): rebuilds one interleaved block, frame-major, from per-channel
buffers. -/
def fill_from_deinterleaved (bufs : List (List Sample)) : List Sample :=
  (List.range (bufs.headD []).length).flatMap fun f => bufs.map fun ch => ch.getD f 0

/-- The external fixed-block FFT resampler (`FftFixedInOut<T>`), modelled
at its interface boundary: a required input block length (`n_frames`,
i.e. `input_frames_next()`) and the opaque DSP transform from per-channel
input to per-channel output (`process_into_buffer`). -/
structure Resampler where
  n_frames : Nat
  process : List (List Sample) → List (List Sample)

/-- The constructor `FftFixedInOut::new(in_rate, out_rate, 1024,
channels)` of the external library, abstracted as a function of its four
arguments. -/
def MkResampler := Nat → Nat → Nat → Nat → Resampler

/-- `ResampleDecoderInner<T>`: one active rate-converter session. -/
structure ResampleDecoderInner where
  written : Nat
  in_buf : ChannelBuffer
  resampler : Resampler
  resampler_buf : List (List Sample)
  out_buf : List Sample

/-- The full-accumulator step of `ResampleDecoderInner::next`: run the
resampler into `resampler_buf`, reset the accumulator, and interleave the
result into `out_buf` (in this order, as in the source). -/
def ResampleDecoderInner.processBlock (st : ResampleDecoderInner) : ResampleDecoderInner :=
  let rbuf := st.resampler.process (ChannelBuffer.inner st.in_buf)
  { st with resampler_buf := rbuf,
            in_buf := ChannelBuffer.reset st.in_buf,
            out_buf := fill_from_deinterleaved rbuf }

/-- The `while !self.in_buf.is_full()` loop of
`ResampleDecoderInner::next`, unrolled as structural recursion over the
decoder's script.  `sr`/`cur`/`upc` are the fields of the decoder being
threaded through; when `fill_from_slice` consumes fewer samples than the
remainder of the current chunk, the accumulator has just become full and
the loop exits into the processing step. -/
def ResampleDecoderInner.nextGo (sr : Nat) (st : ResampleDecoderInner) (cur : List Sample) :
    List (Except DecoderError (List Sample)) →
    (ResampleDecoderInner × Decoder) × Except DecoderError (Option (List Sample))
  | [] =>
    if ChannelBuffer.is_full st.in_buf then
      let st2 := ResampleDecoderInner.processBlock st
      ((st2, ⟨sr, cur, []⟩), Except.ok (some st2.out_buf))
    else
      let fr := ChannelBuffer.fill_from_slice st.in_buf (List.drop st.written cur)
      let st2 : ResampleDecoderInner := { st with in_buf := fr.1, written := st.written + fr.2 }
      if st2.written = cur.length then
        ((st2, ⟨sr, cur, []⟩), Except.ok none)
      else
        let st3 := ResampleDecoderInner.processBlock st2
        ((st3, ⟨sr, cur, []⟩), Except.ok (some st3.out_buf))
  | hd :: tl =>
    if ChannelBuffer.is_full st.in_buf then
      let st2 := ResampleDecoderInner.processBlock st
      ((st2, ⟨sr, cur, hd :: tl⟩), Except.ok (some st2.out_buf))
    else
      let fr := ChannelBuffer.fill_from_slice st.in_buf (List.drop st.written cur)
      let st2 : ResampleDecoderInner := { st with in_buf := fr.1, written := st.written + fr.2 }
      if st2.written = cur.length then
        match hd with
        | Except.error e => ((st2, ⟨sr, cur, Except.error e :: tl⟩), Except.error e)
        | Except.ok c => ResampleDecoderInner.nextGo sr { st2 with written := 0 } c tl
      else
        let st3 := ResampleDecoderInner.processBlock st2
        ((st3, ⟨sr, cur, hd :: tl⟩), Except.ok (some st3.out_buf))

/-- `ResampleDecoderInner::next`: pull chunks from the decoder and feed
the accumulator until full, then resample; returns the mutated session
and decoder together with the result. -/
def ResampleDecoderInner.next (st : ResampleDecoderInner) (d : Decoder) :
    (ResampleDecoderInner × Decoder) × Except DecoderError (Option (List Sample)) :=
  ResampleDecoderInner.nextGo d.sample_rate st d.cur d.upcoming

/-- `ResampleDecoderInner::current`: the most recently produced output
block. -/
def ResampleDecoderInner.current (st : ResampleDecoderInner) : List Sample := st.out_buf

/-- `ResampleDecoderInner::flush`: if the accumulator holds a partial
block, silence the remainder, run the resampler into `resampler_buf`,
reset the accumulator, and return `out_buf`; otherwise return an empty
block.  (As in the source, `out_buf` is returned without being refilled
from `resampler_buf`.) -/
def ResampleDecoderInner.flush (st : ResampleDecoderInner) : ResampleDecoderInner × List Sample :=
  if 0 < st.in_buf.position then
    let inb := ChannelBuffer.silence_remainder st.in_buf
    let rbuf := st.resampler.process (ChannelBuffer.inner inb)
    ({ st with in_buf := ChannelBuffer.reset inb, resampler_buf := rbuf }, st.out_buf)
  else
    (st, [])

/-- `ResampledDecoderImpl<T>`: the converter is exactly one of
Active (`Resampled`) or Bypass (`NotResampled`). -/
inductive ResampledDecoderImpl where
  | Resampled : ResampleDecoderInner → ResampledDecoderImpl
  | NotResampled : ResampledDecoderImpl

/-- `ResampledDecoder<T>`: converter state plus tracked rates. -/
structure ResampledDecoder where
  decoder_inner : ResampledDecoderImpl
  in_sample_rate : Nat
  out_sample_rate : Nat
  channels : Nat

/-- `ResampledDecoder::new`. -/
def ResampledDecoder.new (out_sample_rate channels : Nat) : ResampledDecoder :=
  { decoder_inner := ResampledDecoderImpl.NotResampled,
    in_sample_rate := out_sample_rate,
    out_sample_rate := out_sample_rate,
    channels := channels }

/-- Observer: is the converter in the Bypass (`NotResampled`) state? -/
def ResampledDecoder.isBypass (rd : ResampledDecoder) : Bool :=
  match rd.decoder_inner with
  | ResampledDecoderImpl.NotResampled => true
  | ResampledDecoderImpl.Resampled _ => false

/-- `ResampledDecoder::current`. -/
def ResampledDecoder.current (rd : ResampledDecoder) (d : Decoder) : List Sample :=
  match rd.decoder_inner with
  | ResampledDecoderImpl.Resampled st => ResampleDecoderInner.current st
  | ResampledDecoderImpl.NotResampled => Decoder.current d

/-- `ResampledDecoder::flush`. -/
def ResampledDecoder.flush (rd : ResampledDecoder) : ResampledDecoder × List Sample :=
  match rd.decoder_inner with
  | ResampledDecoderImpl.Resampled st =>
      let r := ResampleDecoderInner.flush st
      ({ rd with decoder_inner := ResampledDecoderImpl.Resampled r.1 }, r.2)
  | ResampledDecoderImpl.NotResampled => (rd, [])

/-- `ResampledDecoder::decode_next_frame`: delegates to the session's
`next` when Active, and to the decoder's own `next` in Bypass. -/
def ResampledDecoder.decode_next_frame (rd : ResampledDecoder) (d : Decoder) :
    (ResampledDecoder × Decoder) × Except DecoderError (Option (List Sample)) :=
  match rd.decoder_inner with
  | ResampledDecoderImpl.Resampled st =>
      let r := ResampleDecoderInner.next st d
      (({ rd with decoder_inner := ResampledDecoderImpl.Resampled r.1.1 }, r.1.2), r.2)
  | ResampledDecoderImpl.NotResampled =>
      let r := Decoder.next d
      ((rd, r.1), r.2)

/-- Outcome of an operation that may hit a Rust `unwrap`/`expect` panic. -/
inductive PanicOr (α : Type) where
  | panicked : PanicOr α
  | ok : α → PanicOr α

/-- The session-construction part of
`ResampledDecoder::initialize_resampler`: build the resampler for
`(in_sample_rate, out_sample_rate, 1024, channels)`, allocate the
session's buffers (empty output block, fresh accumulator sized to the
resampler's required input length). -/
def ResampledDecoder.sessionInner (mk : MkResampler) (rd : ResampledDecoder) : ResampleDecoderInner :=
  let resampler := mk rd.in_sample_rate rd.out_sample_rate 1024 rd.channels
  { written := 0,
    in_buf := ChannelBuffer.new resampler.n_frames rd.channels,
    resampler := resampler,
    resampler_buf := List.replicate rd.channels [],
    out_buf := [] }

/-- The converter after the session of `ResampledDecoder.sessionInner`
has been installed. -/
def ResampledDecoder.buildSession (mk : MkResampler) (rd : ResampledDecoder) : ResampledDecoder :=
  { rd with decoder_inner := ResampledDecoderImpl.Resampled (ResampledDecoder.sessionInner mk rd) }

/-- `ResampledDecoder::initialize_resampler`: build the new session and
immediately pull one block via `decode_next_frame(..).unwrap()` — a
decode error at this point is a panic. -/
def ResampledDecoder.init_resampler (mk : MkResampler) (rd : ResampledDecoder) (d : Decoder) :
    PanicOr (ResampledDecoder × Decoder) :=
  let rd2 := ResampledDecoder.buildSession mk rd
  let r := ResampledDecoder.decode_next_frame rd2 d
  match r.2 with
  | Except.error _ => PanicOr.panicked
  | Except.ok _ => PanicOr.ok r.1

/-- `ResampledDecoder::initialize`: record the decoder's rate, then
branch on the current state exactly as the source does. -/
def ResampledDecoder.init (mk : MkResampler) (rd : ResampledDecoder) (d : Decoder) :
    PanicOr (ResampledDecoder × Decoder) :=
  let current_in_rate := rd.in_sample_rate
  let rd2 := { rd with in_sample_rate := d.sample_rate }
  match rd2.decoder_inner with
  | ResampledDecoderImpl.NotResampled => ResampledDecoder.init_resampler mk rd2 d
  | ResampledDecoderImpl.Resampled st =>
      if rd2.in_sample_rate ≠ rd2.out_sample_rate ∧ rd2.in_sample_rate = current_in_rate then
        PanicOr.ok ({ rd2 with decoder_inner :=
          ResampledDecoderImpl.Resampled ({ st with written := 0 }) }, d)
      else if rd2.in_sample_rate = rd2.out_sample_rate then
        PanicOr.ok ({ rd2 with decoder_inner := ResampledDecoderImpl.NotResampled }, d)
      else
        ResampledDecoder.init_resampler mk rd2 d

/-! ## The playback orchestrator (`examples/queue.rs`)

The orchestrator's interaction with the external Output Sink is recorded
as a trace of events; the sink itself is modelled by a script of
`buffer_space_available()` readings (a racy, best-effort hint in the
source, so a script is the honest abstraction).  A queue entry is a
"file": reopening it yields a fresh decoder over the same script. -/

/-- A queued source: opening it constructs a fresh Decode Source with
this rate, first decoded chunk, and script of subsequent `next` results. -/
structure FileSource where
  sample_rate : Nat
  first : List Sample
  rest : List (Except DecoderError (List Sample))

/-- `Decoder::new` over a queued source. -/
def FileSource.openDecoder (f : FileSource) : Decoder :=
  { sample_rate := f.sample_rate, cur := f.first, upcoming := f.rest }

/-- Observable actions of the orchestrator loop, in program order. -/
inductive Event where
  | opened : Nat → Event
  | initFirst : Nat → Event
  | flushWritten : List Sample → Event
  | initNext : Nat → Nat → Event
  | prefillWrite : List Sample → Event
  | prefillFailed : DecoderError → Event
  | started : Event
  | blockWritten : List Sample → Event
  | resetRetry : Nat → Event
deriving DecidableEq, Repr

/-- How one pass over a source's steady-state loop ended. -/
inductive PlayOutcome where
  | finished
  | reset
  | fatal : DecoderError → PlayOutcome
  | fuelOut
deriving DecidableEq, Repr

/-- The steady-state loop of `main`: blocking-write `current`, then
`decode_next_frame`; `Ok(None)` finishes the source, `ResetRequired`
requests a retry, any other error is fatal.  `fuel` bounds the number of
iterations (the loop itself has no intrinsic bound). -/
def playLoop (rd : ResampledDecoder) (d : Decoder) :
    Nat → List Event × ResampledDecoder × Decoder × PlayOutcome
  | 0 => ([], rd, d, PlayOutcome.fuelOut)
  | fuel + 1 =>
    let w := Event.blockWritten (ResampledDecoder.current rd d)
    let r := ResampledDecoder.decode_next_frame rd d
    match r.2 with
    | Except.ok none => ([w], r.1.1, r.1.2, PlayOutcome.finished)
    | Except.ok (some _) =>
        let k := playLoop r.1.1 r.1.2 fuel
        (w :: k.1, k.2)
    | Except.error DecoderError.resetRequired => ([w], r.1.1, r.1.2, PlayOutcome.reset)
    | Except.error e => ([w], r.1.1, r.1.2, PlayOutcome.fatal e)

/-- The prefill loop of `main`: while the sink reports space for the
current block, write it and advance; a decode error is propagated with
`?` (so even `ResetRequired` escapes here).  The space script ending
models the sink reporting insufficient space. -/
def prefill (rd : ResampledDecoder) (d : Decoder) :
    List Nat → List Event × ResampledDecoder × Decoder × Option DecoderError
  | [] => ([], rd, d, none)
  | s :: spacesRest =>
      let b := ResampledDecoder.current rd d
      if b.length ≤ s then
        let r := ResampledDecoder.decode_next_frame rd d
        match r.2 with
        | Except.error e =>
            ([Event.prefillWrite b, Event.prefillFailed e], r.1.1, r.1.2, some e)
        | Except.ok _ =>
            let k := prefill r.1.1 r.1.2 spacesRest
            (Event.prefillWrite b :: k.1, k.2)
      else ([], rd, d, none)

/-- Terminal result of the whole playback session. -/
inductive RunResult where
  | ok
  | fatal : DecoderError → RunResult
  | panicked
  | fuelOut
deriving DecidableEq, Repr

/-- How one open-decode-play pass over a queue entry ended. -/
inductive AttemptResult where
  | finished
  | reset
  | terminal : RunResult → AttemptResult

/-- Result record of one pass over a queue entry. -/
structure AttemptOut where
  events : List Event
  rd : ResampledDecoder
  spaces : List Nat
  res : AttemptResult

/-- Fixed collaborators and bounds of one orchestrator run: the resampler
constructor, the device-config negotiation (`find_closest_config`,
abstracted to the rate it settles on), the channel count, the initial
default device rate, the sink's space script, and fuel for the two
unbounded loops. -/
structure OrchConfig where
  mkRes : MkResampler
  closest : Nat → Nat
  channels : Nat
  defaultRate : Nat
  spaces : List Nat
  playFuel : Nat
  resetFuel : Nat

/-- Wrap a finished steady-state loop pass into an `AttemptOut`. -/
def afterPlay (ev : List Event) (spaces : List Nat)
    (pl : List Event × ResampledDecoder × Decoder × PlayOutcome) : AttemptOut :=
  match pl.2.2.2 with
  | PlayOutcome.finished => ⟨ev ++ pl.1, pl.2.1, spaces, AttemptResult.finished⟩
  | PlayOutcome.reset => ⟨ev ++ pl.1, pl.2.1, spaces, AttemptResult.reset⟩
  | PlayOutcome.fatal e => ⟨ev ++ pl.1, pl.2.1, spaces, AttemptResult.terminal (RunResult.fatal e)⟩
  | PlayOutcome.fuelOut => ⟨ev ++ pl.1, pl.2.1, spaces, AttemptResult.terminal RunResult.fuelOut⟩

/-- One pass of the per-file loop body of `main`: open the file; on the
very first pass, negotiate the device configuration for the decoder's
rate, rebuild the converter, initialize, prefill and start the sink;
on later passes, flush-write the previous session when the rate differs
and then initialize; finally run the steady-state loop. -/
def fileAttempt (cfg : OrchConfig) (i : Nat) (f : FileSource) (rd : ResampledDecoder)
    (firstTime : Bool) (spaces : List Nat) : AttemptOut :=
  let d := FileSource.openDecoder f
  if firstTime then
    let rd0 := ResampledDecoder.new (cfg.closest d.sample_rate) cfg.channels
    match ResampledDecoder.init cfg.mkRes rd0 d with
    | PanicOr.panicked =>
        ⟨[Event.opened i, Event.initFirst d.sample_rate], rd0, spaces,
          AttemptResult.terminal RunResult.panicked⟩
    | PanicOr.ok p =>
        let pre := prefill p.1 p.2 spaces
        match pre.2.2.2 with
        | some e =>
            ⟨Event.opened i :: Event.initFirst d.sample_rate :: pre.1, pre.2.1, [],
              AttemptResult.terminal (RunResult.fatal e)⟩
        | none =>
            afterPlay (Event.opened i :: Event.initFirst d.sample_rate :: pre.1
                ++ [Event.started]) []
              (playLoop pre.2.1 pre.2.2.1 cfg.playFuel)
  else
    let bnd : List Event × ResampledDecoder :=
      if d.sample_rate ≠ rd.in_sample_rate then
        let fr := ResampledDecoder.flush rd
        ([Event.flushWritten fr.2], fr.1)
      else ([], rd)
    match ResampledDecoder.init cfg.mkRes bnd.2 d with
    | PanicOr.panicked =>
        ⟨Event.opened i :: bnd.1 ++ [Event.initNext d.sample_rate rd.in_sample_rate], bnd.2,
          spaces, AttemptResult.terminal RunResult.panicked⟩
    | PanicOr.ok p =>
        afterPlay (Event.opened i :: bnd.1 ++ [Event.initNext d.sample_rate rd.in_sample_rate])
          spaces (playLoop p.1 p.2 cfg.playFuel)

/-- Result record of the `loop` around one queue entry. -/
structure FileOut where
  events : List Event
  rd : ResampledDecoder
  spaces : List Nat
  result : Option RunResult

/-- The retry `loop` of `main` around one queue entry: a `reset` outcome
reopens the same file (same queue index, `initialized` already true) and
tries again, bounded by the retry fuel. -/
def runFile (cfg : OrchConfig) (i : Nat) (f : FileSource) :
    ResampledDecoder → Bool → List Nat → Nat → FileOut
  | rd, firstTime, spaces, 0 =>
      let a := fileAttempt cfg i f rd firstTime spaces
      match a.res with
      | AttemptResult.finished => ⟨a.events, a.rd, a.spaces, none⟩
      | AttemptResult.reset => ⟨a.events, a.rd, a.spaces, some RunResult.fuelOut⟩
      | AttemptResult.terminal r => ⟨a.events, a.rd, a.spaces, some r⟩
  | rd, firstTime, spaces, n + 1 =>
      let a := fileAttempt cfg i f rd firstTime spaces
      match a.res with
      | AttemptResult.finished => ⟨a.events, a.rd, a.spaces, none⟩
      | AttemptResult.reset =>
          let r := runFile cfg i f a.rd false a.spaces n
          ⟨a.events ++ Event.resetRetry i :: r.events, r.rd, r.spaces, r.result⟩
      | AttemptResult.terminal r => ⟨a.events, a.rd, a.spaces, some r⟩

/-- The `for file_name in queue` loop of `main`. -/
def runQueue (cfg : OrchConfig) :
    List FileSource → Nat → ResampledDecoder → Bool → List Nat → List Event × RunResult
  | [], _, _, _, _ => ([], RunResult.ok)
  | f :: fs, i, rd, firstTime, spaces =>
      let r := runFile cfg i f rd firstTime spaces cfg.resetFuel
      match r.result with
      | some res => (r.events, res)
      | none =>
          let rest := runQueue cfg fs (i + 1) r.rd false r.spaces
          (r.events ++ rest.1, rest.2)

/-- `main`: play the whole queue starting from a fresh converter sized to
the default device configuration. -/
def orchestrate (cfg : OrchConfig) (files : List FileSource) : List Event × RunResult :=
  runQueue cfg files 0 (ResampledDecoder.new cfg.defaultRate cfg.channels) true cfg.spaces

/-! ## Trace checkers -/

/-- Trace discipline at source boundaries: every `initNext` whose new
rate differs from the converter's previous input rate is immediately
preceded by a `flushWritten` (the flush of the previous session is
blocking-written into the sink before the converter is reinitialized). -/
def flushBeforeInit : List Event → Bool
  | [] => true
  | Event.flushWritten _ :: Event.initNext _ _ :: rest => flushBeforeInit rest
  | Event.initNext nr orr :: rest => (nr == orr) && flushBeforeInit rest
  | _ :: rest => flushBeforeInit rest

/-- Events that the `flushBeforeInit` checker just steps over. -/
def flushNeutral : Event → Bool
  | Event.initNext _ _ => false
  | Event.flushWritten _ => false
  | _ => true

/-- Trace discipline for reset recovery: every retry of queue entry `i`
is immediately followed by reopening that same entry (no queue
advancement on `ResetRequired`). -/
def resetRetryOk : List Event → Bool
  | [] => true
  | Event.resetRetry i :: rest =>
      (match rest with
       | Event.opened j :: _ => i == j
       | _ => false) && resetRetryOk rest
  | _ :: rest => resetRetryOk rest

/-- Is this event a reset retry marker? -/
def isRetry : Event → Bool
  | Event.resetRetry _ => true
  | _ => false

/-- Does the trace end in something other than a dangling retry marker? -/
def lastRetryFree : List Event → Bool
  | [] => true
  | [e] => !isRetry e
  | _ :: rest => lastRetryFree rest

/-- Is this event the sink `start()` call? -/
def isStarted : Event → Bool
  | Event.started => true
  | _ => false

/-- Number of sink `start()` calls in a trace. -/
def countStarted (t : List Event) : Nat := t.countP isStarted

/-- Boolean membership test on traces. -/
def containsEv (t : List Event) (e : Event) : Bool := t.any fun x => decide (x = e)

/-- A terminal `ResetRequired` failure can only have been produced by the
prefill loop (which propagates decode errors with `?` instead of
retrying). -/
def fatalResetOnlyFromPrefill (tr : List Event) (res : RunResult) : Bool :=
  !(decide (res = RunResult.fatal DecoderError.resetRequired)) ||
    containsEv tr (Event.prefillFailed DecoderError.resetRequired)

/-- Is this event an action of the prefill loop? -/
def isPrefillEv : Event → Bool
  | Event.prefillWrite _ => true
  | Event.prefillFailed _ => true
  | _ => false

/-- The trace contains no prefill-loop action at all. -/
def noPrefill (t : List Event) : Bool := t.all fun e => !isPrefillEv e

/-- Trace discipline for reset recovery, prefill half: once any reset
retry has happened, no prefill-loop action ever occurs again (the
retried source is reopened without re-running prefill). -/
def noPrefillAfterRetry : List Event → Bool
  | [] => true
  | Event.resetRetry _ :: rest => noPrefill rest
  | _ :: rest => noPrefillAfterRetry rest

/-! ## Concrete instances used in counterexamples and witnesses -/

/-- A concrete resampler constructor: block length 2, identity DSP
transform (the DSP kernel is outside the core, so any transform
instantiates the model). -/
def mkId : MkResampler := fun _ _ _ _ => { n_frames := 2, process := id }

/-- A decoder at 44100 Hz with an empty stream. -/
def dEq : Decoder := ⟨44100, [], []⟩

/-- A decoder at 48000 Hz whose first `next` raises a fatal error. -/
def dErr : Decoder := ⟨48000, [0], [Except.error DecoderError.decodeFailed]⟩

/-- A decoder at 48000 Hz that ends before one resampler block (of the
`mkId` sizing) accumulates. -/
def dShort : Decoder := ⟨48000, [7], []⟩

/-- A decoder at 44100 Hz with one three-sample chunk. -/
def d6 : Decoder := ⟨44100, [1, 2, 3], []⟩

/-- A decoder at 48000 Hz with an empty current chunk. -/
def d5 : Decoder := ⟨48000, [], []⟩

/-- A decoder at 48000 Hz whose current chunk exactly fills one
accumulator block of the `mkId` sizing, followed by end-of-stream. -/
def dExact : Decoder := ⟨48000, [1, 2], []⟩

/-- A decoder at 48000 Hz whose first `next` raises a fatal
(non-recoverable) decode error. -/
def dFatal : Decoder := ⟨48000, [], [Except.error DecoderError.decodeFailed]⟩

/-- A fresh mono session for the `mkId` resampler (block length 2). -/
def stR : ResampleDecoderInner :=
  { written := 0, in_buf := ChannelBuffer.new 2 1,
    resampler := { n_frames := 2, process := id },
    resampler_buf := [[]], out_buf := [] }

/-- An Active converter (48000 → 44100, mono) holding `stR`. -/
def rdR : ResampledDecoder :=
  { decoder_inner := ResampledDecoderImpl.Resampled stR,
    in_sample_rate := 48000, out_sample_rate := 44100, channels := 1 }

/-- A stereo session (block length 2, so capacity 4) whose accumulator
holds one pending sample `5` and whose previous output block was
`[9, 9, 9, 9]`. -/
def innerStale : ResampleDecoderInner :=
  { written := 0,
    in_buf := (ChannelBuffer.fill_from_slice (ChannelBuffer.new 2 2) [5]).1,
    resampler := { n_frames := 2, process := id },
    resampler_buf := [[], []], out_buf := [9, 9, 9, 9] }

/-- Orchestrator configuration for the prefill counterexample: mono,
device negotiates 44100 Hz, one space reading large enough for a block. -/
def cfg8 : OrchConfig :=
  { mkRes := mkId, closest := fun _ => 44100, channels := 1, defaultRate := 44100,
    spaces := [10], playFuel := 5, resetFuel := 2 }

/-- A queued source at 48000 Hz that raises `ResetRequired` while the
sink is still being prefilled. -/
def f8 : FileSource :=
  { sample_rate := 48000, first := [1, 2, 3],
    rest := [Except.error DecoderError.resetRequired] }

/-! ## General lemmas about the converter -/

/-- What one `next` call guarantees, by case on its result: a produced
block is exactly the session's new output buffer, which is the
interleaving of the resampler's output on the accumulated per-channel
data, and the accumulator has been reset; an end-of-stream result leaves
the output buffer untouched and happens only with the source exhausted;
errors fall through. -/
theorem nextGo_spec (sr : Nat) (st : ResampleDecoderInner) (cur : List Sample)
    (upc : List (Except DecoderError (List Sample))) :
    match ResampleDecoderInner.nextGo sr st cur upc with
    | ((st', _), Except.ok (some b)) =>
        b = st'.out_buf ∧
        st'.out_buf = fill_from_deinterleaved st'.resampler_buf ∧
        st'.resampler_buf = st'.resampler.process (ChannelBuffer.inner st'.in_buf) ∧
        st'.in_buf.position = 0
    | ((st', d'), Except.ok none) => st'.out_buf = st.out_buf ∧ d'.upcoming = []
    | ((_, _), Except.error _) => True := by
  induction upc generalizing st cur with
  | nil =>
      by_cases h1 : ChannelBuffer.is_full st.in_buf
      · simp [ResampleDecoderInner.nextGo, h1, ResampleDecoderInner.processBlock,
          ChannelBuffer.inner, ChannelBuffer.reset, fill_from_deinterleaved]
      · by_cases h2 : st.written + (ChannelBuffer.fill_from_slice st.in_buf (List.drop st.written cur)).2 = cur.length
        · simp [ResampleDecoderInner.nextGo, h1, h2]
        · simp [ResampleDecoderInner.nextGo, h1, h2, ResampleDecoderInner.processBlock,
            ChannelBuffer.inner, ChannelBuffer.reset, fill_from_deinterleaved]
  | cons hd tl ih =>
      by_cases h1 : ChannelBuffer.is_full st.in_buf
      · simp [ResampleDecoderInner.nextGo, h1, ResampleDecoderInner.processBlock,
          ChannelBuffer.inner, ChannelBuffer.reset, fill_from_deinterleaved]
      · by_cases h2 : st.written + (ChannelBuffer.fill_from_slice st.in_buf (List.drop st.written cur)).2 = cur.length
        · cases hd with
          | error e => simp [ResampleDecoderInner.nextGo, h1, h2]
          | ok c =>
              have := ih { st with
                  in_buf := (ChannelBuffer.fill_from_slice st.in_buf (List.drop st.written cur)).1,
                  written := 0 } c
              simp only [ResampleDecoderInner.nextGo, h1, h2, if_neg, if_pos, ite_false, ite_true]
              exact this
        · simp [ResampleDecoderInner.nextGo, h1, h2, ResampleDecoderInner.processBlock,
            ChannelBuffer.inner, ChannelBuffer.reset, fill_from_deinterleaved]

/-- `nextGo_spec` restated over `ResampleDecoderInner.next`. -/
theorem next_spec (st : ResampleDecoderInner) (d : Decoder) :
    match ResampleDecoderInner.next st d with
    | ((st', _), Except.ok (some b)) =>
        b = st'.out_buf ∧
        st'.out_buf = fill_from_deinterleaved st'.resampler_buf ∧
        st'.resampler_buf = st'.resampler.process (ChannelBuffer.inner st'.in_buf) ∧
        st'.in_buf.position = 0
    | ((st', d'), Except.ok none) => st'.out_buf = st.out_buf ∧ d'.upcoming = []
    | ((_, _), Except.error _) => True :=
  nextGo_spec d.sample_rate st d.cur d.upcoming

/-- An error leaving the filling loop is exactly the first error of the
decoder's remaining script: everything consumed before it was a decoded
chunk, and the error value is passed through verbatim. -/
theorem nextGo_error_from_script (sr : Nat) (upc : List (Except DecoderError (List Sample))) :
    ∀ (st : ResampleDecoderInner) (cur : List Sample) (e : DecoderError),
    (ResampleDecoderInner.nextGo sr st cur upc).2 = Except.error e →
    ∃ pre rest, upc = pre ++ Except.error e :: rest ∧ ∀ x ∈ pre, ∃ c, x = Except.ok c := by
  induction upc with
  | nil =>
      intro st cur e h
      by_cases h1 : ChannelBuffer.is_full st.in_buf
      · simp [ResampleDecoderInner.nextGo, h1] at h
      · by_cases h2 : st.written + (ChannelBuffer.fill_from_slice st.in_buf (List.drop st.written cur)).2 = cur.length
        · simp [ResampleDecoderInner.nextGo, h1, h2] at h
        · simp [ResampleDecoderInner.nextGo, h1, h2] at h
  | cons hd tl ih =>
      intro st cur e h
      by_cases h1 : ChannelBuffer.is_full st.in_buf
      · simp [ResampleDecoderInner.nextGo, h1] at h
      · by_cases h2 : st.written + (ChannelBuffer.fill_from_slice st.in_buf (List.drop st.written cur)).2 = cur.length
        · cases hd with
          | error e2 =>
              simp [ResampleDecoderInner.nextGo, h1, h2] at h
              exact ⟨[], tl, by simp [h], by simp⟩
          | ok c =>
              simp [ResampleDecoderInner.nextGo, h1, h2] at h
              obtain ⟨pre, rest, hEq, hPre⟩ := ih _ _ _ h
              refine ⟨Except.ok c :: pre, rest, by simp [hEq], ?_⟩
              intro x hx
              rcases List.mem_cons.mp hx with hx | hx
              · exact ⟨c, hx⟩
              · exact hPre x hx
        · simp [ResampleDecoderInner.nextGo, h1, h2] at h

/-- `nextGo_error_from_script` restated over `ResampleDecoderInner.next`. -/
theorem next_error_from_script (st : ResampleDecoderInner) (d : Decoder) (e : DecoderError)
    (h : (ResampleDecoderInner.next st d).2 = Except.error e) :
    ∃ pre rest, d.upcoming = pre ++ Except.error e :: rest ∧ ∀ x ∈ pre, ∃ c, x = Except.ok c :=
  nextGo_error_from_script d.sample_rate d.upcoming st d.cur e h

/-- `initialize` unfolded to its three-way state table. -/
theorem init_eq (mk : MkResampler) (rd : ResampledDecoder) (d : Decoder) :
    ResampledDecoder.init mk rd d =
      match rd.decoder_inner with
      | ResampledDecoderImpl.NotResampled =>
          ResampledDecoder.init_resampler mk { rd with in_sample_rate := d.sample_rate } d
      | ResampledDecoderImpl.Resampled st =>
          if d.sample_rate ≠ rd.out_sample_rate ∧ d.sample_rate = rd.in_sample_rate then
            PanicOr.ok ({ rd with in_sample_rate := d.sample_rate, decoder_inner := ResampledDecoderImpl.Resampled ({ st with written := 0 }) }, d)
          else if d.sample_rate = rd.out_sample_rate then
            PanicOr.ok ({ rd with in_sample_rate := d.sample_rate, decoder_inner := ResampledDecoderImpl.NotResampled }, d)
          else
            ResampledDecoder.init_resampler mk { rd with in_sample_rate := d.sample_rate } d := rfl

/-- `initialize` from the Bypass state always builds a session. -/
theorem init_eq_notResampled (mk : MkResampler) (rd : ResampledDecoder) (d : Decoder)
    (h : rd.decoder_inner = ResampledDecoderImpl.NotResampled) :
    ResampledDecoder.init mk rd d =
      ResampledDecoder.init_resampler mk { rd with in_sample_rate := d.sample_rate } d := by
  rw [init_eq, h]

/-- `initialize` from an Active state, unfolded to its rate conditions. -/
theorem init_eq_resampled (mk : MkResampler) (rd : ResampledDecoder) (d : Decoder)
    (st : ResampleDecoderInner) (h : rd.decoder_inner = ResampledDecoderImpl.Resampled st) :
    ResampledDecoder.init mk rd d =
      (if d.sample_rate ≠ rd.out_sample_rate ∧ d.sample_rate = rd.in_sample_rate then
        PanicOr.ok ({ rd with in_sample_rate := d.sample_rate, decoder_inner := ResampledDecoderImpl.Resampled ({ st with written := 0 }) }, d)
      else if d.sample_rate = rd.out_sample_rate then
        PanicOr.ok ({ rd with in_sample_rate := d.sample_rate, decoder_inner := ResampledDecoderImpl.NotResampled }, d)
      else
        ResampledDecoder.init_resampler mk { rd with in_sample_rate := d.sample_rate } d) := by
  rw [init_eq, h]

/-- Advancing the converter never changes which state variant it is in. -/
theorem decode_next_frame_bypass_eq (rd : ResampledDecoder) (d : Decoder) :
    ((ResampledDecoder.decode_next_frame rd d).1.1.isBypass) = rd.isBypass := by
  cases h : rd.decoder_inner with
  | Resampled st => simp [ResampledDecoder.decode_next_frame, ResampledDecoder.isBypass, h]
  | NotResampled => simp [ResampledDecoder.decode_next_frame, ResampledDecoder.isBypass, h]

/-- `initialize_resampler` unfolded: build the session, pull once, panic
on a decode error. -/
theorem init_resampler_eq (mk : MkResampler) (rd : ResampledDecoder) (d : Decoder) :
    ResampledDecoder.init_resampler mk rd d =
      (match (ResampledDecoder.decode_next_frame (ResampledDecoder.buildSession mk rd) d).2 with
       | Except.error _ => PanicOr.panicked
       | Except.ok _ =>
           PanicOr.ok (ResampledDecoder.decode_next_frame (ResampledDecoder.buildSession mk rd) d).1) := rfl

/-- A successful `initialize_resampler` leaves the converter Active. -/
theorem init_resampler_not_bypass (mk : MkResampler) (rd : ResampledDecoder) (d : Decoder)
    (p : ResampledDecoder × Decoder)
    (h : ResampledDecoder.init_resampler mk rd d = PanicOr.ok p) :
    p.1.isBypass = false := by
  have h2 : (match (ResampledDecoder.decode_next_frame (ResampledDecoder.buildSession mk rd) d).2 with
      | Except.error _ => PanicOr.panicked
      | Except.ok _ =>
          PanicOr.ok (ResampledDecoder.decode_next_frame (ResampledDecoder.buildSession mk rd) d).1) =
      PanicOr.ok p := h
  cases hr : (ResampledDecoder.decode_next_frame (ResampledDecoder.buildSession mk rd) d).2 with
  | error e => rw [hr] at h2; exact absurd h2 (by simp)
  | ok v =>
      rw [hr] at h2
      simp at h2
      rw [← h2]
      rw [decode_next_frame_bypass_eq]
      simp [ResampledDecoder.buildSession, ResampledDecoder.isBypass]

/-- On an Active converter, `decode_next_frame` is the session's `next`. -/
theorem decode_next_frame_eq_resampled (rd : ResampledDecoder) (st : ResampleDecoderInner)
    (d : Decoder) (h : rd.decoder_inner = ResampledDecoderImpl.Resampled st) :
    ResampledDecoder.decode_next_frame rd d =
      (({ rd with decoder_inner := ResampledDecoderImpl.Resampled (ResampleDecoderInner.next st d).1.1 },
        (ResampleDecoderInner.next st d).1.2), (ResampleDecoderInner.next st d).2) := by
  simp [ResampledDecoder.decode_next_frame, h]

/-! ## Claim C1 -/

/-- C1, counterexample: a freshly constructed converter (Bypass) at
44100 Hz, initialized with a decoder whose rate is also 44100 Hz, does
NOT stay in Bypass — the source's `NotResampled` branch of `initialize`
unconditionally builds a resampler session, contradicting the claimed
invariant `Bypass ⟺ in_rate == out_rate at last initialization`. -/
theorem C1_counterexample :
    (match ResampledDecoder.init mkId (ResampledDecoder.new 44100 2) dEq with
     | PanicOr.ok p => p.1.isBypass
     | PanicOr.panicked => true) = false := by rfl

/-- C1, amended: after a non-panicking `initialize`, the converter is in
Bypass if and only if it was Active before AND the decoder's rate equals
`out_sample_rate`; in particular `initialize` from Bypass always
constructs a session, even when the rates are equal. -/
theorem C1_amended (mk : MkResampler) (rd : ResampledDecoder) (d : Decoder) :
    match ResampledDecoder.init mk rd d with
    | PanicOr.ok p => p.1.isBypass = (!rd.isBypass && (d.sample_rate == rd.out_sample_rate))
    | PanicOr.panicked => True := by
  cases hdi : rd.decoder_inner with
  | NotResampled =>
      have hb : rd.isBypass = true := by simp [ResampledDecoder.isBypass, hdi]
      rw [init_eq_notResampled mk rd d hdi]
      split
      · rename_i p hini
        rw [init_resampler_not_bypass mk _ d p hini, hb]
        simp
      · trivial
  | Resampled st =>
      have hb : rd.isBypass = false := by simp [ResampledDecoder.isBypass, hdi]
      rw [init_eq_resampled mk rd d st hdi]
      by_cases hc1 : d.sample_rate ≠ rd.out_sample_rate ∧ d.sample_rate = rd.in_sample_rate
      · rw [if_pos hc1, hb]
        have hbeq : (d.sample_rate == rd.out_sample_rate) = false := by simp [hc1.1]
        rw [hbeq]
        simp [ResampledDecoder.isBypass]
      · rw [if_neg hc1]
        by_cases hc2 : d.sample_rate = rd.out_sample_rate
        · rw [if_pos hc2, hb]
          have hbeq : (d.sample_rate == rd.out_sample_rate) = true := by simp [hc2]
          rw [hbeq]
          simp [ResampledDecoder.isBypass]
        · rw [if_neg hc2]
          split
          · rename_i p hini
            rw [init_resampler_not_bypass mk _ d p hini, hb]
            simp [hc2]
          · trivial

/-! ## Claim C2 -/

/-- C2, code bug: on a session whose previous output block was
`[9,9,9,9]` and whose accumulator holds one pending sample `5`,
`flush()` silence-pads and runs the resampler (the correct flushed block,
`[5,0,0,0]` with its silent tail, is computed into `resampler_buf`) but
returns the stale previous block `[9,9,9,9]` — the source never copies
`resampler_buf` back into `out_buf` on the flush path.  The
`position == 0` half of the claim does hold (empty block returned). -/
theorem C2_bug_eval :
    (ResampleDecoderInner.flush innerStale).2 = [9, 9, 9, 9] ∧
    fill_from_deinterleaved ((ResampleDecoderInner.flush innerStale).1.resampler_buf) = [5, 0, 0, 0] ∧
    ([9, 9, 9, 9] : List Sample) ≠ [5, 0, 0, 0] ∧
    (ResampleDecoderInner.flush ({ innerStale with in_buf := ChannelBuffer.reset innerStale.in_buf })).2 = [] := by
  refine ⟨rfl, rfl, by decide, rfl⟩

/-! ## Claim C3 -/

/-- C3, counterexample: with a fresh mono session of block length 2 and a
decoder whose current chunk `[1,2]` exactly fills the accumulator with
end-of-stream next, `next()` fills the accumulator completely and STILL
returns `None` without producing a block — the source checks for a new
chunk before re-checking fullness, so a block boundary coinciding with
end-of-stream yields no output even though the accumulator is full. -/
theorem C3_counterexample :
    (ResampleDecoderInner.next stR dExact).2 = Except.ok none ∧
    ChannelBuffer.is_full (ResampleDecoderInner.next stR dExact).1.1.in_buf = true :=
  ⟨rfl, rfl⟩

/-- C3, amended: `next()` pulls chunks until the accumulator is full;
when it returns a block, that block is the session's output buffer — the
interleaving of the resampler's output on the accumulated per-channel
data — and the accumulator has been reset; when it returns `None`, the
source was exhausted and the output buffer is untouched (no output, no
silence-padding) — but this `None` case also covers the boundary case in
which the accumulator filled exactly as the final chunk was consumed. -/
theorem C3_amended (st : ResampleDecoderInner) (d : Decoder) :
    match ResampleDecoderInner.next st d with
    | ((st', _), Except.ok (some b)) =>
        b = st'.out_buf ∧
        st'.out_buf = fill_from_deinterleaved st'.resampler_buf ∧
        st'.resampler_buf = st'.resampler.process (ChannelBuffer.inner st'.in_buf) ∧
        st'.in_buf.position = 0
    | ((st', d'), Except.ok none) => st'.out_buf = st.out_buf ∧ d'.upcoming = []
    | ((_, _), Except.error _) => True :=
  nextGo_spec d.sample_rate st d.cur d.upcoming

/-! ## Claim C4 -/

/-- C4, counterexample: a decode error raised during the block pulled
while initializing a new session makes the Converter panic (abort) —
`initialize_resampler` ends in `.unwrap()` — instead of returning the
error to the Orchestrator. -/
theorem C4_counterexample :
    ResampledDecoder.init mkId (ResampledDecoder.new 44100 1) dErr = PanicOr.panicked := by rfl

/-- C4, amended: decode errors raised during `decode_next_frame` on an
Active session are returned to the Orchestrator verbatim (the error is
the first error of the source's script; nothing is swallowed); but a
decode error during the block pulled inside `initialize_resampler`
panics — `initialize` has no error channel — rather than being
returned. -/
theorem C4_amended (mk : MkResampler) (rd : ResampledDecoder) (st : ResampleDecoderInner)
    (d : Decoder) (e : DecoderError) (h : rd.decoder_inner = ResampledDecoderImpl.Resampled st) :
    ((ResampledDecoder.decode_next_frame rd d).2 = Except.error e →
      ∃ pre rest, d.upcoming = pre ++ Except.error e :: rest ∧ ∀ x ∈ pre, ∃ c, x = Except.ok c)
    ∧ (ResampledDecoder.init_resampler mk rd d = PanicOr.panicked ↔
        ∃ e2, (ResampledDecoder.decode_next_frame (ResampledDecoder.buildSession mk rd) d).2 =
          Except.error e2) := by
  constructor
  · intro he
    rw [decode_next_frame_eq_resampled rd st d h] at he
    exact next_error_from_script st d e he
  · rw [init_resampler_eq]
    cases hr : (ResampledDecoder.decode_next_frame (ResampledDecoder.buildSession mk rd) d).2 with
    | error e2 => simp [hr]
    | ok v => simp [hr]

/-- C4, witness for the amended theorem: on the concrete Active converter
`rdR` and the decoder `dErr`, the error returned by `decode_next_frame`
is located verbatim in the source's script. -/
theorem C4_amended_w :
    ∃ pre rest, dErr.upcoming = pre ++ Except.error DecoderError.decodeFailed :: rest ∧
      ∀ x ∈ pre, ∃ c, x = Except.ok c :=
  (C4_amended mkId rdR stR dErr DecoderError.decodeFailed rfl).1 rfl

/-! ## Claim C5 -/

/-- C5: `initialize` on an Active session whose configured input rate
equals the new decoder's rate (and differs from the output rate) keeps
the session — the resampler instance, accumulator, and buffers are all
unchanged — and only resets the `written` cursor to 0; the decoder is
untouched and nothing is rebuilt (the result does not depend on the
resampler constructor at all). -/
theorem C5_keep_session (mk : MkResampler) (rd : ResampledDecoder) (st : ResampleDecoderInner)
    (d : Decoder) (h : rd.decoder_inner = ResampledDecoderImpl.Resampled st)
    (hrate : d.sample_rate = rd.in_sample_rate)
    (hneq : d.sample_rate ≠ rd.out_sample_rate) :
    ResampledDecoder.init mk rd d =
      PanicOr.ok ({ rd with in_sample_rate := d.sample_rate, decoder_inner := ResampledDecoderImpl.Resampled ({ st with written := 0 }) }, d) := by
  rw [init_eq_resampled mk rd d st h, if_pos (And.intro hneq hrate)]

/-- C5, witness: the concrete Active converter `rdR` (48000 → 44100)
reinitialized with a 48000 Hz decoder keeps its session with only
`written` reset. -/
theorem C5_keep_session_w :
    ResampledDecoder.init mkId rdR d5 =
      PanicOr.ok ({ rdR with in_sample_rate := d5.sample_rate, decoder_inner := ResampledDecoderImpl.Resampled ({ stR with written := 0 }) }, d5) :=
  C5_keep_session mkId rdR stR d5 rfl rfl (by decide)

/-! ## Claim C6 -/

/-- C6, counterexample: with equal in/out rates (both 44100 Hz), after
`initialize` on a fresh converter the converter's `current` is NOT
byte-identical to the decoder's own `current` (here `[1,2]` against
`[1,2,3]`, even with an identity DSP transform), and a session WAS
allocated — because `initialize` from Bypass always builds a session. -/
theorem C6_counterexample :
    (match ResampledDecoder.init mkId (ResampledDecoder.new 44100 1) d6 with
     | PanicOr.ok p =>
        (decide (ResampledDecoder.current p.1 p.2 = Decoder.current p.2), p.1.isBypass)
     | PanicOr.panicked => (true, true)) = (false, false) := by rfl

/-- C6, amended: whenever the converter is in the Bypass state, `current`
and `decode_next_frame` are true passthrough — byte-identical to the
decoder's own `current`/`next`, with the converter state untouched; but
byte-identity after an `initialize` with equal rates only holds when that
`initialize` was performed on an Active converter (an `initialize` from
Bypass allocates a session even for equal rates). -/
theorem C6_amended (rd : ResampledDecoder) (d : Decoder) (h : rd.isBypass = true) :
    ResampledDecoder.current rd d = Decoder.current d ∧
    ResampledDecoder.decode_next_frame rd d = ((rd, (Decoder.next d).1), (Decoder.next d).2) := by
  cases hdi : rd.decoder_inner with
  | Resampled st =>
      rw [ResampledDecoder.isBypass, hdi] at h
      simp at h
  | NotResampled =>
      constructor
      · simp [ResampledDecoder.current, hdi]
      · simp [ResampledDecoder.decode_next_frame, hdi]

/-- C6, witness for the amended theorem: a fresh 44100 Hz converter in
Bypass delegates `current` and `decode_next_frame` to the decoder. -/
theorem C6_amended_w :
    ResampledDecoder.current (ResampledDecoder.new 44100 1) d6 = Decoder.current d6 ∧
    ResampledDecoder.decode_next_frame (ResampledDecoder.new 44100 1) d6 =
      ((ResampledDecoder.new 44100 1, (Decoder.next d6).1), (Decoder.next d6).2) :=
  C6_amended (ResampledDecoder.new 44100 1) d6 rfl

/-! ## Claim C9 -/

/-- C9, counterexample: an `initialize` that builds a new session for a
rate pair 48000 → 44100 pulls one block, but if the source ends before
one resampler input block accumulates, the pull returns `None` and
`current()` is EMPTY after `initialize` returns. -/
theorem C9_counterexample :
    (match ResampledDecoder.init mkId (ResampledDecoder.new 44100 1) dShort with
     | PanicOr.ok p => ResampledDecoder.current p.1 p.2
     | PanicOr.panicked => [99]) = ([] : List Sample) := by rfl

/-- C9, amended: `initialize_resampler` pulls exactly one block via
`decode_next_frame` on the freshly built session, and the converter it
returns is exactly the post-pull state; when the pull produced a block,
`current()` afterwards returns exactly that block; when the source ended
before one input block accumulated, `current()` afterwards is empty. -/
theorem C9_amended (mk : MkResampler) (rd : ResampledDecoder) (d : Decoder) :
    match ResampledDecoder.init_resampler mk rd d,
        ResampledDecoder.decode_next_frame (ResampledDecoder.buildSession mk rd) d with
    | PanicOr.ok p, (q, Except.ok (some b)) => p = q ∧ ResampledDecoder.current p.1 p.2 = b
    | PanicOr.ok p, (q, Except.ok none) => p = q ∧ ResampledDecoder.current p.1 p.2 = []
    | _, _ => True := by
  rw [init_resampler_eq mk rd d,
      decode_next_frame_eq_resampled (ResampledDecoder.buildSession mk rd)
        (ResampledDecoder.sessionInner mk rd) d rfl]
  have hs := next_spec (ResampledDecoder.sessionInner mk rd) d
  rcases hn : ResampleDecoderInner.next (ResampledDecoder.sessionInner mk rd) d with ⟨⟨st', d2⟩, res⟩
  rw [hn] at hs
  cases res with
  | error e => simp
  | ok v =>
      cases v with
      | none =>
          refine ⟨rfl, ?_⟩
          simp only [ResampledDecoder.current, ResampleDecoderInner.current]
          have hout : (ResampledDecoder.sessionInner mk rd).out_buf = [] := rfl
          rw [hs.1, hout]
      | some b =>
          refine ⟨rfl, ?_⟩
          simp only [ResampledDecoder.current, ResampleDecoderInner.current]
          exact hs.1.symm

/-! ## Claim C10 -/

/-- C10: a freshly constructed converter is in Bypass with
`in_sample_rate() = out_sample_rate()` (both the given output rate), and
`current`/`decode_next_frame` delegate directly to the underlying
decoder. -/
theorem C10_fresh_bypass (out ch : Nat) (d : Decoder) :
    (ResampledDecoder.new out ch).isBypass = true ∧
    (ResampledDecoder.new out ch).in_sample_rate = (ResampledDecoder.new out ch).out_sample_rate ∧
    (ResampledDecoder.new out ch).out_sample_rate = out ∧
    ResampledDecoder.current (ResampledDecoder.new out ch) d = Decoder.current d ∧
    ResampledDecoder.decode_next_frame (ResampledDecoder.new out ch) d =
      ((ResampledDecoder.new out ch, (Decoder.next d).1), (Decoder.next d).2) :=
  ⟨rfl, rfl, rfl, rfl, rfl⟩

/-! ## Trace lemmas for the orchestrator -/

theorem playLoop_events (rd : ResampledDecoder) (d : Decoder) (n : Nat) :
    ∀ e ∈ (playLoop rd d n).1, ∃ b, e = Event.blockWritten b := by
  induction n generalizing rd d with
  | zero => intro e he; simp [playLoop] at he
  | succ n ih =>
      intro e he
      simp only [playLoop] at he
      rcases hr : (ResampledDecoder.decode_next_frame rd d).2 with e2 | v
      · rw [hr] at he
        cases e2 <;> simp at he <;> exact ⟨_, he⟩
      · rw [hr] at he
        cases v with
        | none => simp at he; exact ⟨_, he⟩
        | some b =>
            simp at he
            rcases he with he | he
            · exact ⟨_, he⟩
            · exact ih _ _ e he

theorem prefill_events (rd : ResampledDecoder) (d : Decoder) (s : List Nat) :
    ∀ e ∈ (prefill rd d s).1,
      (∃ b, e = Event.prefillWrite b) ∨ (∃ er, e = Event.prefillFailed er) := by
  induction s generalizing rd d with
  | nil => intro e he; simp [prefill] at he
  | cons s0 srest ih =>
      intro e he
      simp only [prefill] at he
      by_cases hl : (ResampledDecoder.current rd d).length ≤ s0
      · rw [if_pos hl] at he
        rcases hr : (ResampledDecoder.decode_next_frame rd d).2 with e2 | v
        · rw [hr] at he
          simp at he
          rcases he with he | he
          · exact Or.inl ⟨_, he⟩
          · exact Or.inr ⟨_, he⟩
        · rw [hr] at he
          simp at he
          rcases he with he | he
          · exact Or.inl ⟨_, he⟩
          · exact ih _ _ e he
      · rw [if_neg hl] at he
        simp at he

theorem flushBeforeInit_append_neutral (t1 t2 : List Event)
    (h : ∀ e ∈ t1, flushNeutral e = true) :
    flushBeforeInit (t1 ++ t2) = flushBeforeInit t2 := by
  induction t1 with
  | nil => rfl
  | cons e t ih =>
      have he : flushNeutral e = true := h e (List.mem_cons_self e t)
      have ht : ∀ x ∈ t, flushNeutral x = true := fun x hx => h x (List.mem_cons_of_mem e hx)
      cases e <;> simp [flushNeutral] at he <;> simp [flushBeforeInit, ih ht]

theorem afterPlay_events (ev : List Event) (s : List Nat)
    (pl : List Event × ResampledDecoder × Decoder × PlayOutcome) :
    (afterPlay ev s pl).events = ev ++ pl.1 := by
  rcases pl with ⟨tr, rd, d, o⟩
  cases o <;> rfl

theorem playLoop_neutral (rd : ResampledDecoder) (d : Decoder) (n : Nat) :
    ∀ e ∈ (playLoop rd d n).1, flushNeutral e = true := by
  intro e he
  rcases playLoop_events rd d n e he with ⟨b, hb⟩
  simp [hb, flushNeutral]

theorem prefill_neutral (rd : ResampledDecoder) (d : Decoder) (s : List Nat) :
    ∀ e ∈ (prefill rd d s).1, flushNeutral e = true := by
  intro e he
  rcases prefill_events rd d s e he with ⟨b, hb⟩ | ⟨er, hb⟩ <;> simp [hb, flushNeutral]

theorem flushBeforeInit_pair (i : Nat) (b : List Sample) (nr orr : Nat) (t : List Event) :
    flushBeforeInit (Event.opened i :: Event.flushWritten b :: Event.initNext nr orr :: t) =
      flushBeforeInit t := by
  simp [flushBeforeInit]

theorem flushBeforeInit_initNextStep (i : Nat) (nr orr : Nat) (t : List Event) :
    flushBeforeInit (Event.opened i :: Event.initNext nr orr :: t) =
      ((nr == orr) && flushBeforeInit t) := by
  simp [flushBeforeInit]

theorem flushBeforeInit_attempt (cfg : OrchConfig) (i : Nat) (f : FileSource)
    (rd : ResampledDecoder) (ft : Bool) (spaces : List Nat) (t : List Event) :
    flushBeforeInit ((fileAttempt cfg i f rd ft spaces).events ++ t) = flushBeforeInit t := by
  by_cases hft : ft = true
  · simp only [fileAttempt, if_pos hft]
    cases hini : ResampledDecoder.init cfg.mkRes
        (ResampledDecoder.new (cfg.closest (FileSource.openDecoder f).sample_rate) cfg.channels)
        (FileSource.openDecoder f) with
    | panicked =>
        simp only [hini]
        apply flushBeforeInit_append_neutral
        intro e he
        simp at he
        rcases he with he | he <;> simp [he, flushNeutral]
    | ok p =>
        simp only [hini]
        cases hpre : (prefill p.1 p.2 spaces).2.2.2 with
        | some e =>
            simp only [hpre]
            apply flushBeforeInit_append_neutral
            intro e2 he2
            simp at he2
            rcases he2 with he2 | he2 | he2
            · simp [he2, flushNeutral]
            · simp [he2, flushNeutral]
            · exact prefill_neutral p.1 p.2 spaces e2 he2
        | none =>
            simp only [hpre]
            rw [afterPlay_events]
            apply flushBeforeInit_append_neutral
            intro e2 he2
            simp at he2
            rcases he2 with he2 | he2 | he2 | he2 | he2
            · simp [he2, flushNeutral]
            · simp [he2, flushNeutral]
            · exact prefill_neutral p.1 p.2 spaces e2 he2
            · simp [he2, flushNeutral]
            · exact playLoop_neutral _ _ _ e2 he2
  · simp only [fileAttempt, if_neg hft]
    by_cases hrate : (FileSource.openDecoder f).sample_rate ≠ rd.in_sample_rate
    · rw [if_pos hrate]
      cases hini : ResampledDecoder.init cfg.mkRes (ResampledDecoder.flush rd).1
          (FileSource.openDecoder f) with
      | panicked =>
          simp only [hini, List.cons_append, List.singleton_append, List.nil_append,
            List.append_assoc]
          exact flushBeforeInit_pair _ _ _ _ t
      | ok p =>
          simp only [hini]
          rw [afterPlay_events]
          simp only [List.cons_append, List.singleton_append, List.nil_append, List.append_assoc]
          rw [flushBeforeInit_pair]
          exact flushBeforeInit_append_neutral _ _ (playLoop_neutral _ _ _)
    · rw [if_neg hrate]
      push_neg at hrate
      have hbeq : ((FileSource.openDecoder f).sample_rate == rd.in_sample_rate) = true := by
        simp [hrate]
      cases hini : ResampledDecoder.init cfg.mkRes rd (FileSource.openDecoder f) with
      | panicked =>
          simp only [hini, List.cons_append, List.singleton_append, List.nil_append,
            List.append_assoc]
          rw [flushBeforeInit_initNextStep, hbeq]
          simp
      | ok p =>
          simp only [hini]
          rw [afterPlay_events]
          simp only [List.cons_append, List.singleton_append, List.nil_append, List.append_assoc]
          rw [flushBeforeInit_initNextStep, hbeq]
          simp only [Bool.true_and]
          exact flushBeforeInit_append_neutral _ _ (playLoop_neutral _ _ _)



theorem flushBeforeInit_retryStep (j : Nat) (l : List Event) :
    flushBeforeInit (Event.resetRetry j :: l) = flushBeforeInit l := by
  simp [flushBeforeInit]

theorem flushBeforeInit_runFile (cfg : OrchConfig) (i : Nat) (f : FileSource) :
    ∀ (fuel : Nat) (rd : ResampledDecoder) (ft : Bool) (spaces : List Nat) (t : List Event),
    flushBeforeInit ((runFile cfg i f rd ft spaces fuel).events ++ t) = flushBeforeInit t := by
  intro fuel
  induction fuel with
  | zero =>
      intro rd ft spaces t
      simp only [runFile]
      cases ha : (fileAttempt cfg i f rd ft spaces).res with
      | finished => simp only [ha]; exact flushBeforeInit_attempt cfg i f rd ft spaces t
      | reset => simp only [ha]; exact flushBeforeInit_attempt cfg i f rd ft spaces t
      | terminal r => simp only [ha]; exact flushBeforeInit_attempt cfg i f rd ft spaces t
  | succ n ih =>
      intro rd ft spaces t
      simp only [runFile]
      cases ha : (fileAttempt cfg i f rd ft spaces).res with
      | finished => simp only [ha]; exact flushBeforeInit_attempt cfg i f rd ft spaces t
      | terminal r => simp only [ha]; exact flushBeforeInit_attempt cfg i f rd ft spaces t
      | reset =>
          simp only [ha, List.append_assoc, List.cons_append]
          rw [flushBeforeInit_attempt, flushBeforeInit_retryStep]
          exact ih _ _ _ t

theorem flushBeforeInit_runQueue (cfg : OrchConfig) :
    ∀ (files : List FileSource) (i : Nat) (rd : ResampledDecoder) (ft : Bool)
      (spaces : List Nat) (t : List Event),
    flushBeforeInit ((runQueue cfg files i rd ft spaces).1 ++ t) = flushBeforeInit t := by
  intro files
  induction files with
  | nil => intro i rd ft spaces t; rfl
  | cons f fs ih =>
      intro i rd ft spaces t
      simp only [runQueue]
      cases hr : (runFile cfg i f rd ft spaces cfg.resetFuel).result with
      | some res => simp only [hr]; exact flushBeforeInit_runFile cfg i f cfg.resetFuel rd ft spaces t
      | none =>
          simp only [hr, List.append_assoc]
          rw [flushBeforeInit_runFile]
          exact ih _ _ _ _ t

/-- C7: in every trace the orchestrator loop can produce — for any queue,
any resampler constructor, any device negotiation, any sink space script
and any fuel — whenever a non-first source is initialized with a rate
that differs from the converter's previous input rate, the `initialize`
event is immediately preceded by the blocking write of the previous
session's `flush()` output; an `initialize` without a preceding flush
write happens only when the rates are equal (checked by
`flushBeforeInit`). -/
theorem C7_flush_before_reinit (cfg : OrchConfig) (files : List FileSource) :
    flushBeforeInit (orchestrate cfg files).1 = true := by
  have h := flushBeforeInit_runQueue cfg files 0
    (ResampledDecoder.new cfg.defaultRate cfg.channels) true cfg.spaces []
  rw [List.append_nil] at h
  exact h



theorem resetRetryOk_append_noRetry (t1 t2 : List Event)
    (h : ∀ e ∈ t1, isRetry e = false) :
    resetRetryOk (t1 ++ t2) = resetRetryOk t2 := by
  induction t1 with
  | nil => rfl
  | cons e t ih =>
      have he : isRetry e = false := h e (List.mem_cons_self e t)
      have ht : ∀ x ∈ t, isRetry x = false := fun x hx => h x (List.mem_cons_of_mem e hx)
      cases e <;> simp [isRetry] at he ⊢ <;> simp [resetRetryOk, ih ht]

theorem attempt_noRetry (cfg : OrchConfig) (i : Nat) (f : FileSource)
    (rd : ResampledDecoder) (ft : Bool) (spaces : List Nat) :
    ∀ e ∈ (fileAttempt cfg i f rd ft spaces).events, isRetry e = false := by
  by_cases hft : ft = true
  · simp only [fileAttempt, if_pos hft]
    cases hini : ResampledDecoder.init cfg.mkRes
        (ResampledDecoder.new (cfg.closest (FileSource.openDecoder f).sample_rate) cfg.channels)
        (FileSource.openDecoder f) with
    | panicked =>
        simp only [hini]
        intro e he
        simp at he
        rcases he with he | he <;> simp [he, isRetry]
    | ok p =>
        simp only [hini]
        cases hpre : (prefill p.1 p.2 spaces).2.2.2 with
        | some e =>
            simp only [hpre]
            intro e2 he2
            simp at he2
            rcases he2 with he2 | he2 | he2
            · simp [he2, isRetry]
            · simp [he2, isRetry]
            · rcases prefill_events p.1 p.2 spaces e2 he2 with ⟨b, hb⟩ | ⟨er, hb⟩ <;>
                simp [hb, isRetry]
        | none =>
            simp only [hpre]
            rw [afterPlay_events]
            intro e2 he2
            simp at he2
            rcases he2 with he2 | he2 | he2 | he2 | he2
            · simp [he2, isRetry]
            · simp [he2, isRetry]
            · rcases prefill_events p.1 p.2 spaces e2 he2 with ⟨b, hb⟩ | ⟨er, hb⟩ <;>
                simp [hb, isRetry]
            · simp [he2, isRetry]
            · rcases playLoop_events _ _ _ e2 he2 with ⟨b, hb⟩
              simp [hb, isRetry]
  · simp only [fileAttempt, if_neg hft]
    by_cases hrate : (FileSource.openDecoder f).sample_rate ≠ rd.in_sample_rate
    · rw [if_pos hrate]
      cases hini : ResampledDecoder.init cfg.mkRes (ResampledDecoder.flush rd).1
          (FileSource.openDecoder f) with
      | panicked =>
          simp only [hini]
          intro e he
          simp at he
          rcases he with he | he | he <;> simp [he, isRetry]
      | ok p =>
          simp only [hini]
          rw [afterPlay_events]
          intro e he
          simp at he
          rcases he with he | he | he | he
          · simp [he, isRetry]
          · simp [he, isRetry]
          · simp [he, isRetry]
          · rcases playLoop_events _ _ _ e he with ⟨b, hb⟩
            simp [hb, isRetry]
    · rw [if_neg hrate]
      cases hini : ResampledDecoder.init cfg.mkRes rd (FileSource.openDecoder f) with
      | panicked =>
          simp only [hini]
          intro e he
          simp at he
          rcases he with he | he <;> simp [he, isRetry]
      | ok p =>
          simp only [hini]
          rw [afterPlay_events]
          intro e he
          simp at he
          rcases he with he | he | he
          · simp [he, isRetry]
          · simp [he, isRetry]
          · rcases playLoop_events _ _ _ e he with ⟨b, hb⟩
            simp [hb, isRetry]

theorem attempt_events_cons (cfg : OrchConfig) (i : Nat) (f : FileSource)
    (rd : ResampledDecoder) (ft : Bool) (spaces : List Nat) :
    ∃ tl, (fileAttempt cfg i f rd ft spaces).events = Event.opened i :: tl := by
  by_cases hft : ft = true
  · simp only [fileAttempt, if_pos hft]
    cases hini : ResampledDecoder.init cfg.mkRes
        (ResampledDecoder.new (cfg.closest (FileSource.openDecoder f).sample_rate) cfg.channels)
        (FileSource.openDecoder f) with
    | panicked => simp only [hini]; exact ⟨_, rfl⟩
    | ok p =>
        simp only [hini]
        cases hpre : (prefill p.1 p.2 spaces).2.2.2 with
        | some e => simp only [hpre]; exact ⟨_, rfl⟩
        | none =>
            simp only [hpre]
            rw [afterPlay_events]
            exact ⟨_, rfl⟩
  · simp only [fileAttempt, if_neg hft]
    by_cases hrate : (FileSource.openDecoder f).sample_rate ≠ rd.in_sample_rate
    · rw [if_pos hrate]
      cases hini : ResampledDecoder.init cfg.mkRes (ResampledDecoder.flush rd).1
          (FileSource.openDecoder f) with
      | panicked => simp only [hini]; exact ⟨_, rfl⟩
      | ok p =>
          simp only [hini]
          rw [afterPlay_events]
          exact ⟨_, rfl⟩
    · rw [if_neg hrate]
      cases hini : ResampledDecoder.init cfg.mkRes rd (FileSource.openDecoder f) with
      | panicked => simp only [hini]; exact ⟨_, rfl⟩
      | ok p =>
          simp only [hini]
          rw [afterPlay_events]
          exact ⟨_, rfl⟩

theorem runFile_events_cons (cfg : OrchConfig) (i : Nat) (f : FileSource) :
    ∀ (fuel : Nat) (rd : ResampledDecoder) (ft : Bool) (spaces : List Nat),
    ∃ tl, (runFile cfg i f rd ft spaces fuel).events = Event.opened i :: tl := by
  intro fuel
  cases fuel with
  | zero =>
      intro rd ft spaces
      simp only [runFile]
      obtain ⟨tl, htl⟩ := attempt_events_cons cfg i f rd ft spaces
      cases ha : (fileAttempt cfg i f rd ft spaces).res <;> simp only [ha] <;> exact ⟨tl, htl⟩
  | succ n =>
      intro rd ft spaces
      simp only [runFile]
      obtain ⟨tl, htl⟩ := attempt_events_cons cfg i f rd ft spaces
      cases ha : (fileAttempt cfg i f rd ft spaces).res with
      | finished => simp only [ha]; exact ⟨tl, htl⟩
      | terminal r => simp only [ha]; exact ⟨tl, htl⟩
      | reset =>
          simp only [ha]
          refine ⟨tl ++ Event.resetRetry i :: (runFile cfg i f (fileAttempt cfg i f rd ft spaces).rd
            false (fileAttempt cfg i f rd ft spaces).spaces n).events, ?_⟩
          rw [htl]
          simp

theorem resetRetryOk_retryStep (i : Nat) (l : List Event) :
    resetRetryOk (Event.resetRetry i :: l) =
      ((match l with | Event.opened j :: _ => i == j | _ => false) && resetRetryOk l) := by
  simp [resetRetryOk]

theorem resetRetryOk_runFile (cfg : OrchConfig) (i : Nat) (f : FileSource) :
    ∀ (fuel : Nat) (rd : ResampledDecoder) (ft : Bool) (spaces : List Nat) (t : List Event),
    resetRetryOk ((runFile cfg i f rd ft spaces fuel).events ++ t) = resetRetryOk t := by
  intro fuel
  induction fuel with
  | zero =>
      intro rd ft spaces t
      simp only [runFile]
      cases ha : (fileAttempt cfg i f rd ft spaces).res <;> simp only [ha] <;>
        exact resetRetryOk_append_noRetry _ t (attempt_noRetry cfg i f rd ft spaces)
  | succ n ih =>
      intro rd ft spaces t
      simp only [runFile]
      cases ha : (fileAttempt cfg i f rd ft spaces).res with
      | finished =>
          simp only [ha]
          exact resetRetryOk_append_noRetry _ t (attempt_noRetry cfg i f rd ft spaces)
      | terminal r =>
          simp only [ha]
          exact resetRetryOk_append_noRetry _ t (attempt_noRetry cfg i f rd ft spaces)
      | reset =>
          simp only [ha, List.append_assoc, List.cons_append]
          rw [resetRetryOk_append_noRetry _ _ (attempt_noRetry cfg i f rd ft spaces)]
          rw [resetRetryOk_retryStep]
          obtain ⟨tl, htl⟩ := runFile_events_cons cfg i f n
            (fileAttempt cfg i f rd ft spaces).rd false (fileAttempt cfg i f rd ft spaces).spaces
          have hmt : (runFile cfg i f (fileAttempt cfg i f rd ft spaces).rd false
              (fileAttempt cfg i f rd ft spaces).spaces n).events ++ t =
              Event.opened i :: (tl ++ t) := by rw [htl]; simp
          rw [ih, hmt]
          simp

theorem resetRetryOk_runQueue (cfg : OrchConfig) :
    ∀ (files : List FileSource) (i : Nat) (rd : ResampledDecoder) (ft : Bool)
      (spaces : List Nat) (t : List Event),
    resetRetryOk ((runQueue cfg files i rd ft spaces).1 ++ t) = resetRetryOk t := by
  intro files
  induction files with
  | nil => intro i rd ft spaces t; rfl
  | cons f fs ih =>
      intro i rd ft spaces t
      simp only [runQueue]
      cases hr : (runFile cfg i f rd ft spaces cfg.resetFuel).result with
      | some res => simp only [hr]; exact resetRetryOk_runFile cfg i f cfg.resetFuel rd ft spaces t
      | none =>
          simp only [hr, List.append_assoc]
          rw [resetRetryOk_runFile]
          exact ih _ _ _ _ t



theorem countStarted_append (a b : List Event) :
    countStarted (a ++ b) = countStarted a + countStarted b :=
  List.countP_append _ _ _

theorem countStarted_playLoop (rd : ResampledDecoder) (d : Decoder) (n : Nat) :
    countStarted (playLoop rd d n).1 = 0 := by
  rw [countStarted, List.countP_eq_zero]
  intro e he
  rcases playLoop_events rd d n e he with ⟨b, hb⟩
  simp [hb, isStarted]

theorem countStarted_prefill (rd : ResampledDecoder) (d : Decoder) (s : List Nat) :
    countStarted (prefill rd d s).1 = 0 := by
  rw [countStarted, List.countP_eq_zero]
  intro e he
  rcases prefill_events rd d s e he with ⟨b, hb⟩ | ⟨er, hb⟩ <;> simp [hb, isStarted]

theorem countStarted_attempt_false (cfg : OrchConfig) (i : Nat) (f : FileSource)
    (rd : ResampledDecoder) (spaces : List Nat) :
    countStarted (fileAttempt cfg i f rd false spaces).events = 0 := by
  simp only [fileAttempt, Bool.false_eq_true, if_false]
  by_cases hrate : (FileSource.openDecoder f).sample_rate ≠ rd.in_sample_rate
  · rw [if_pos hrate]
    cases hini : ResampledDecoder.init cfg.mkRes (ResampledDecoder.flush rd).1
        (FileSource.openDecoder f) with
    | panicked => simp only [hini]; rfl
    | ok p =>
        simp only [hini]
        rw [afterPlay_events]
        rw [countStarted_append]
        rw [countStarted_playLoop]
        rfl
  · rw [if_neg hrate]
    cases hini : ResampledDecoder.init cfg.mkRes rd (FileSource.openDecoder f) with
    | panicked => simp only [hini]; rfl
    | ok p =>
        simp only [hini]
        rw [afterPlay_events]
        rw [countStarted_append]
        rw [countStarted_playLoop]
        rfl

theorem countStarted_attempt_true (cfg : OrchConfig) (i : Nat) (f : FileSource)
    (rd : ResampledDecoder) (spaces : List Nat) :
    countStarted (fileAttempt cfg i f rd true spaces).events ≤ 1 := by
  simp only [fileAttempt, if_pos]
  cases hini : ResampledDecoder.init cfg.mkRes
      (ResampledDecoder.new (cfg.closest (FileSource.openDecoder f).sample_rate) cfg.channels)
      (FileSource.openDecoder f) with
  | panicked => simp only [hini]; simp [countStarted, List.countP, List.countP.go, isStarted]
  | ok p =>
      simp only [hini]
      cases hpre : (prefill p.1 p.2 spaces).2.2.2 with
      | some e =>
          simp only [hpre]
          show countStarted (Event.opened i :: Event.initFirst (FileSource.openDecoder f).sample_rate
            :: (prefill p.1 p.2 spaces).1) ≤ 1
          rw [show Event.opened i :: Event.initFirst (FileSource.openDecoder f).sample_rate
              :: (prefill p.1 p.2 spaces).1 =
            [Event.opened i, Event.initFirst (FileSource.openDecoder f).sample_rate]
              ++ (prefill p.1 p.2 spaces).1 from by simp]
          rw [countStarted_append, countStarted_prefill]
          simp [countStarted, List.countP, List.countP.go, isStarted]
      | none =>
          simp only [hpre]
          rw [afterPlay_events]
          rw [show (Event.opened i :: Event.initFirst (FileSource.openDecoder f).sample_rate
              :: (prefill p.1 p.2 spaces).1 ++ [Event.started])
              ++ (playLoop (prefill p.1 p.2 spaces).2.1 (prefill p.1 p.2 spaces).2.2.1 cfg.playFuel).1 =
            ([Event.opened i, Event.initFirst (FileSource.openDecoder f).sample_rate]
              ++ (prefill p.1 p.2 spaces).1) ++ ([Event.started]
              ++ (playLoop (prefill p.1 p.2 spaces).2.1 (prefill p.1 p.2 spaces).2.2.1 cfg.playFuel).1) from by simp]
          rw [countStarted_append, countStarted_append, countStarted_append,
            countStarted_prefill, countStarted_playLoop]
          simp [countStarted, List.countP, List.countP.go, isStarted]

theorem countStarted_runFile_false (cfg : OrchConfig) (i : Nat) (f : FileSource) :
    ∀ (fuel : Nat) (rd : ResampledDecoder) (spaces : List Nat),
    countStarted (runFile cfg i f rd false spaces fuel).events = 0 := by
  intro fuel
  induction fuel with
  | zero =>
      intro rd spaces
      simp only [runFile]
      cases ha : (fileAttempt cfg i f rd false spaces).res <;> simp only [ha] <;>
        exact countStarted_attempt_false cfg i f rd spaces
  | succ n ih =>
      intro rd spaces
      simp only [runFile]
      cases ha : (fileAttempt cfg i f rd false spaces).res with
      | finished => simp only [ha]; exact countStarted_attempt_false cfg i f rd spaces
      | terminal r => simp only [ha]; exact countStarted_attempt_false cfg i f rd spaces
      | reset =>
          simp only [ha]
          rw [show (fileAttempt cfg i f rd false spaces).events ++ Event.resetRetry i ::
              (runFile cfg i f (fileAttempt cfg i f rd false spaces).rd false
                (fileAttempt cfg i f rd false spaces).spaces n).events =
            (fileAttempt cfg i f rd false spaces).events ++ ([Event.resetRetry i] ++
              (runFile cfg i f (fileAttempt cfg i f rd false spaces).rd false
                (fileAttempt cfg i f rd false spaces).spaces n).events) from by simp]
          rw [countStarted_append, countStarted_append, countStarted_attempt_false, ih]
          simp [countStarted, List.countP, List.countP.go, isStarted]

theorem countStarted_runFile_true (cfg : OrchConfig) (i : Nat) (f : FileSource)
    (fuel : Nat) (rd : ResampledDecoder) (spaces : List Nat) :
    countStarted (runFile cfg i f rd true spaces fuel).events ≤ 1 := by
  cases fuel with
  | zero =>
      simp only [runFile]
      cases ha : (fileAttempt cfg i f rd true spaces).res <;> simp only [ha] <;>
        exact countStarted_attempt_true cfg i f rd spaces
  | succ n =>
      simp only [runFile]
      cases ha : (fileAttempt cfg i f rd true spaces).res with
      | finished => simp only [ha]; exact countStarted_attempt_true cfg i f rd spaces
      | terminal r => simp only [ha]; exact countStarted_attempt_true cfg i f rd spaces
      | reset =>
          simp only [ha]
          rw [show (fileAttempt cfg i f rd true spaces).events ++ Event.resetRetry i ::
              (runFile cfg i f (fileAttempt cfg i f rd true spaces).rd false
                (fileAttempt cfg i f rd true spaces).spaces n).events =
            (fileAttempt cfg i f rd true spaces).events ++ ([Event.resetRetry i] ++
              (runFile cfg i f (fileAttempt cfg i f rd true spaces).rd false
                (fileAttempt cfg i f rd true spaces).spaces n).events) from by simp]
          rw [countStarted_append, countStarted_append, countStarted_runFile_false]
          have h1 := countStarted_attempt_true cfg i f rd spaces
          have h2 : countStarted [Event.resetRetry i] = 0 := by
            simp [countStarted, List.countP, List.countP.go, isStarted]
          omega

theorem countStarted_runQueue_false (cfg : OrchConfig) :
    ∀ (files : List FileSource) (i : Nat) (rd : ResampledDecoder) (spaces : List Nat),
    countStarted (runQueue cfg files i rd false spaces).1 = 0 := by
  intro files
  induction files with
  | nil => intro i rd spaces; rfl
  | cons f fs ih =>
      intro i rd spaces
      simp only [runQueue]
      cases hr : (runFile cfg i f rd false spaces cfg.resetFuel).result with
      | some res => simp only [hr]; exact countStarted_runFile_false cfg i f cfg.resetFuel rd spaces
      | none =>
          simp only [hr]
          rw [countStarted_append, countStarted_runFile_false, ih]

theorem countStarted_runQueue_true (cfg : OrchConfig) (files : List FileSource) (i : Nat)
    (rd : ResampledDecoder) (spaces : List Nat) :
    countStarted (runQueue cfg files i rd true spaces).1 ≤ 1 := by
  cases files with
  | nil => simp [runQueue, countStarted, List.countP, List.countP.go]
  | cons f fs =>
      simp only [runQueue]
      cases hr : (runFile cfg i f rd true spaces cfg.resetFuel).result with
      | some res => simp only [hr]; exact countStarted_runFile_true cfg i f cfg.resetFuel rd spaces
      | none =>
          simp only [hr]
          rw [countStarted_append, countStarted_runQueue_false]
          have h1 := countStarted_runFile_true cfg i f cfg.resetFuel rd spaces
          omega

theorem playLoop_fatal_ne (rd : ResampledDecoder) (d : Decoder) (n : Nat) (e : DecoderError)
    (h : (playLoop rd d n).2.2.2 = PlayOutcome.fatal e) : e ≠ DecoderError.resetRequired := by
  induction n generalizing rd d with
  | zero => simp [playLoop] at h
  | succ n ih =>
      simp only [playLoop] at h
      rcases hr : (ResampledDecoder.decode_next_frame rd d).2 with e2 | v
      · rw [hr] at h
        cases e2 with
        | resetRequired => simp at h
        | decodeFailed =>
            simp at h
            rw [← h]
            intro hc
            exact absurd hc (by simp)
      · rw [hr] at h
        cases v with
        | none => simp at h
        | some b =>
            simp at h
            exact ih _ _ h

theorem prefill_err_mem (rd : ResampledDecoder) (d : Decoder) (s : List Nat) (e : DecoderError)
    (h : (prefill rd d s).2.2.2 = some e) :
    Event.prefillFailed e ∈ (prefill rd d s).1 := by
  induction s generalizing rd d with
  | nil => simp [prefill] at h
  | cons s0 srest ih =>
      simp only [prefill] at h ⊢
      by_cases hl : (ResampledDecoder.current rd d).length ≤ s0
      · rw [if_pos hl] at h ⊢
        rcases hr : (ResampledDecoder.decode_next_frame rd d).2 with e2 | v
        · rw [hr] at h
          simp at h
          simp [h]
        · rw [hr] at h
          simp at h
          simp
          exact ih _ _ h
      · rw [if_neg hl] at h
        simp at h

theorem afterPlay_fatal (ev : List Event) (s : List Nat)
    (pl : List Event × ResampledDecoder × Decoder × PlayOutcome) (e : DecoderError)
    (h : (afterPlay ev s pl).res = AttemptResult.terminal (RunResult.fatal e)) :
    pl.2.2.2 = PlayOutcome.fatal e := by
  rcases pl with ⟨tr, rd, d, o⟩
  cases o <;> simp [afterPlay] at h ⊢
  exact h

theorem attempt_fatalRR (cfg : OrchConfig) (i : Nat) (f : FileSource)
    (rd : ResampledDecoder) (ft : Bool) (spaces : List Nat)
    (h : (fileAttempt cfg i f rd ft spaces).res =
      AttemptResult.terminal (RunResult.fatal DecoderError.resetRequired)) :
    Event.prefillFailed DecoderError.resetRequired ∈ (fileAttempt cfg i f rd ft spaces).events := by
  simp only [fileAttempt] at h ⊢
  by_cases hft : ft = true
  · rw [if_pos hft] at h ⊢
    cases hini : ResampledDecoder.init cfg.mkRes
        (ResampledDecoder.new (cfg.closest (FileSource.openDecoder f).sample_rate) cfg.channels)
        (FileSource.openDecoder f) with
    | panicked =>
        rw [hini] at h
        simp at h
    | ok p =>
        rw [hini] at h
        simp only [] at h
        simp only []
        cases hpre : (prefill p.1 p.2 spaces).2.2.2 with
        | some e =>
            rw [hpre] at h
            simp at h
            have hmem := prefill_err_mem p.1 p.2 spaces e hpre
            simp only [List.mem_cons]
            right
            right
            rw [← h]
            exact hmem
        | none =>
            rw [hpre] at h
            have hpl := afterPlay_fatal _ _ _ _ h
            exact absurd rfl (playLoop_fatal_ne _ _ _ _ hpl)
  · rw [if_neg hft] at h ⊢
    by_cases hrate : (FileSource.openDecoder f).sample_rate ≠ rd.in_sample_rate
    · rw [if_pos hrate] at h ⊢
      cases hini : ResampledDecoder.init cfg.mkRes (ResampledDecoder.flush rd).1
          (FileSource.openDecoder f) with
      | panicked =>
          rw [hini] at h
          simp at h
      | ok p =>
          rw [hini] at h
          simp only [] at h
          have hpl := afterPlay_fatal _ _ _ _ h
          exact absurd rfl (playLoop_fatal_ne _ _ _ _ hpl)
    · rw [if_neg hrate] at h ⊢
      cases hini : ResampledDecoder.init cfg.mkRes rd (FileSource.openDecoder f) with
      | panicked =>
          rw [hini] at h
          simp at h
      | ok p =>
          rw [hini] at h
          simp only [] at h
          have hpl := afterPlay_fatal _ _ _ _ h
          exact absurd rfl (playLoop_fatal_ne _ _ _ _ hpl)



theorem runFile_fatalRR (cfg : OrchConfig) (i : Nat) (f : FileSource) :
    ∀ (fuel : Nat) (rd : ResampledDecoder) (ft : Bool) (spaces : List Nat),
    (runFile cfg i f rd ft spaces fuel).result =
      some (RunResult.fatal DecoderError.resetRequired) →
    Event.prefillFailed DecoderError.resetRequired ∈ (runFile cfg i f rd ft spaces fuel).events := by
  intro fuel
  induction fuel with
  | zero =>
      intro rd ft spaces h
      simp only [runFile] at h ⊢
      cases ha : (fileAttempt cfg i f rd ft spaces).res with
      | finished => rw [ha] at h; simp at h
      | reset => rw [ha] at h; simp at h
      | terminal r =>
          rw [ha] at h
          simp at h
          simp only []
          exact attempt_fatalRR cfg i f rd ft spaces (by rw [ha, h])
  | succ n ih =>
      intro rd ft spaces h
      simp only [runFile] at h ⊢
      cases ha : (fileAttempt cfg i f rd ft spaces).res with
      | finished => rw [ha] at h; simp at h
      | terminal r =>
          rw [ha] at h
          simp at h
          simp only []
          exact attempt_fatalRR cfg i f rd ft spaces (by rw [ha, h])
      | reset =>
          rw [ha] at h
          simp only [] at h
          simp only []
          have hmem := ih _ _ _ h
          simp [hmem]

theorem runQueue_fatalRR (cfg : OrchConfig) :
    ∀ (files : List FileSource) (i : Nat) (rd : ResampledDecoder) (ft : Bool)
      (spaces : List Nat),
    (runQueue cfg files i rd ft spaces).2 = RunResult.fatal DecoderError.resetRequired →
    Event.prefillFailed DecoderError.resetRequired ∈ (runQueue cfg files i rd ft spaces).1 := by
  intro files
  induction files with
  | nil => intro i rd ft spaces h; simp [runQueue] at h
  | cons f fs ih =>
      intro i rd ft spaces h
      simp only [runQueue] at h ⊢
      cases hr : (runFile cfg i f rd ft spaces cfg.resetFuel).result with
      | some res =>
          rw [hr] at h
          simp at h
          simp only []
          exact runFile_fatalRR cfg i f cfg.resetFuel rd ft spaces (by rw [hr, h])
      | none =>
          rw [hr] at h
          simp only [] at h
          simp only []
          simp only [List.mem_append]
          exact Or.inr (ih _ _ _ _ h)

theorem noPrefill_append (a b : List Event) :
    noPrefill (a ++ b) = (noPrefill a && noPrefill b) := by
  simp [noPrefill, List.all_append]

theorem noPrefill_cons (e : Event) (t : List Event) :
    noPrefill (e :: t) = (!isPrefillEv e && noPrefill t) := by
  simp [noPrefill]

/-- The steady-state loop performs no prefill action. -/
theorem playLoop_noPrefill (rd : ResampledDecoder) (d : Decoder) (n : Nat) :
    noPrefill (playLoop rd d n).1 = true := by
  rw [noPrefill, List.all_eq_true]
  intro e he
  rcases playLoop_events rd d n e he with ⟨b, hb⟩
  simp [hb, isPrefillEv]

/-- A non-first pass over a queue entry (retry or later source) performs
no prefill action. -/
theorem attempt_false_noPrefill (cfg : OrchConfig) (i : Nat) (f : FileSource)
    (rd : ResampledDecoder) (spaces : List Nat) :
    noPrefill (fileAttempt cfg i f rd false spaces).events = true := by
  rw [noPrefill, List.all_eq_true]
  intro e he
  simp only [fileAttempt, Bool.false_eq_true, if_false] at he
  by_cases hrate : (FileSource.openDecoder f).sample_rate ≠ rd.in_sample_rate
  · rw [if_pos hrate] at he
    cases hini : ResampledDecoder.init cfg.mkRes (ResampledDecoder.flush rd).1
        (FileSource.openDecoder f) with
    | panicked =>
        rw [hini] at he
        simp at he
        rcases he with he | he | he <;> simp [he, isPrefillEv]
    | ok p =>
        rw [hini] at he
        simp only [] at he
        rw [afterPlay_events] at he
        simp at he
        rcases he with he | he | he | he
        · simp [he, isPrefillEv]
        · simp [he, isPrefillEv]
        · simp [he, isPrefillEv]
        · rcases playLoop_events _ _ _ e he with ⟨b, hb⟩
          simp [hb, isPrefillEv]
  · rw [if_neg hrate] at he
    cases hini : ResampledDecoder.init cfg.mkRes rd (FileSource.openDecoder f) with
    | panicked =>
        rw [hini] at he
        simp at he
        rcases he with he | he <;> simp [he, isPrefillEv]
    | ok p =>
        rw [hini] at he
        simp only [] at he
        rw [afterPlay_events] at he
        simp at he
        rcases he with he | he | he
        · simp [he, isPrefillEv]
        · simp [he, isPrefillEv]
        · rcases playLoop_events _ _ _ e he with ⟨b, hb⟩
          simp [hb, isPrefillEv]

/-- The whole retry loop around a queue entry, entered with the pipeline
already initialized, performs no prefill action. -/
theorem runFile_false_noPrefill (cfg : OrchConfig) (i : Nat) (f : FileSource) :
    ∀ (fuel : Nat) (rd : ResampledDecoder) (spaces : List Nat),
    noPrefill (runFile cfg i f rd false spaces fuel).events = true := by
  intro fuel
  induction fuel with
  | zero =>
      intro rd spaces
      simp only [runFile]
      cases ha : (fileAttempt cfg i f rd false spaces).res <;> simp only [ha] <;>
        exact attempt_false_noPrefill cfg i f rd spaces
  | succ n ih =>
      intro rd spaces
      simp only [runFile]
      cases ha : (fileAttempt cfg i f rd false spaces).res with
      | finished => simp only [ha]; exact attempt_false_noPrefill cfg i f rd spaces
      | terminal r => simp only [ha]; exact attempt_false_noPrefill cfg i f rd spaces
      | reset =>
          simp only [ha]
          rw [show (fileAttempt cfg i f rd false spaces).events ++ Event.resetRetry i ::
              (runFile cfg i f (fileAttempt cfg i f rd false spaces).rd false
                (fileAttempt cfg i f rd false spaces).spaces n).events =
            (fileAttempt cfg i f rd false spaces).events ++ ([Event.resetRetry i] ++
              (runFile cfg i f (fileAttempt cfg i f rd false spaces).rd false
                (fileAttempt cfg i f rd false spaces).spaces n).events) from by simp]
          rw [noPrefill_append, noPrefill_append, attempt_false_noPrefill, ih]
          simp [noPrefill, isPrefillEv]

/-- The queue loop over the remaining sources, entered with the pipeline
already initialized, performs no prefill action. -/
theorem runQueue_false_noPrefill (cfg : OrchConfig) :
    ∀ (files : List FileSource) (i : Nat) (rd : ResampledDecoder) (spaces : List Nat),
    noPrefill (runQueue cfg files i rd false spaces).1 = true := by
  intro files
  induction files with
  | nil => intro i rd spaces; rfl
  | cons f fs ih =>
      intro i rd spaces
      simp only [runQueue]
      cases hr : (runFile cfg i f rd false spaces cfg.resetFuel).result with
      | some res => simp only [hr]; exact runFile_false_noPrefill cfg i f cfg.resetFuel rd spaces
      | none =>
          simp only [hr]
          rw [noPrefill_append, runFile_false_noPrefill, ih]
          rfl

theorem npar_retryStep (i : Nat) (l : List Event) :
    noPrefillAfterRetry (Event.resetRetry i :: l) = noPrefill l := by
  simp [noPrefillAfterRetry]

theorem npar_of_noPrefill (t : List Event) (h : noPrefill t = true) :
    noPrefillAfterRetry t = true := by
  induction t with
  | nil => rfl
  | cons e rest ih =>
      rw [noPrefill_cons] at h
      simp at h
      cases e <;> simp [noPrefillAfterRetry] <;> first | exact ih h.2 | exact h.2

theorem npar_append_noRetry (a b : List Event) (h : ∀ e ∈ a, isRetry e = false) :
    noPrefillAfterRetry (a ++ b) = noPrefillAfterRetry b := by
  induction a with
  | nil => rfl
  | cons e t ih =>
      have he : isRetry e = false := h e (List.mem_cons_self e t)
      have ht : ∀ x ∈ t, isRetry x = false := fun x hx => h x (List.mem_cons_of_mem e hx)
      cases e <;> simp [isRetry] at he ⊢ <;> simp [noPrefillAfterRetry, ih ht]

/-- Once the first pass over a queue entry ends, no later event of the
run is a prefill action: any continuation that is prefill-free stays
prefill-free after every retry inside this entry. -/
theorem runFile_true_npar (cfg : OrchConfig) (i : Nat) (f : FileSource)
    (fuel : Nat) (rd : ResampledDecoder) (spaces : List Nat) (t : List Event)
    (ht : noPrefill t = true) :
    noPrefillAfterRetry ((runFile cfg i f rd true spaces fuel).events ++ t) = true := by
  cases fuel with
  | zero =>
      simp only [runFile]
      cases ha : (fileAttempt cfg i f rd true spaces).res <;> simp only [ha] <;>
        (rw [npar_append_noRetry _ _ (attempt_noRetry cfg i f rd true spaces)];
         exact npar_of_noPrefill t ht)
  | succ n =>
      simp only [runFile]
      cases ha : (fileAttempt cfg i f rd true spaces).res with
      | finished =>
          simp only [ha]
          rw [npar_append_noRetry _ _ (attempt_noRetry cfg i f rd true spaces)]
          exact npar_of_noPrefill t ht
      | terminal r =>
          simp only [ha]
          rw [npar_append_noRetry _ _ (attempt_noRetry cfg i f rd true spaces)]
          exact npar_of_noPrefill t ht
      | reset =>
          simp only [ha, List.append_assoc, List.cons_append]
          rw [npar_append_noRetry _ _ (attempt_noRetry cfg i f rd true spaces)]
          rw [npar_retryStep]
          rw [noPrefill_append, runFile_false_noPrefill, ht]
          rfl

/-- In every orchestrator run, no prefill action ever happens after a
reset retry: prefill is never re-run. -/
theorem orchestrate_npar (cfg : OrchConfig) (files : List FileSource) :
    noPrefillAfterRetry (orchestrate cfg files).1 = true := by
  cases files with
  | nil => rfl
  | cons f fs =>
      simp only [orchestrate, runQueue]
      cases hr : (runFile cfg 0 f (ResampledDecoder.new cfg.defaultRate cfg.channels) true
          cfg.spaces cfg.resetFuel).result with
      | some res =>
          simp only [hr]
          have h := runFile_true_npar cfg 0 f cfg.resetFuel
            (ResampledDecoder.new cfg.defaultRate cfg.channels) cfg.spaces [] rfl
          rw [List.append_nil] at h
          exact h
      | none =>
          simp only [hr]
          exact runFile_true_npar cfg 0 f cfg.resetFuel
            (ResampledDecoder.new cfg.defaultRate cfg.channels) cfg.spaces _
            (runQueue_false_noPrefill cfg fs (0 + 1) _ _)

/-- A non-`ResetRequired` decode error makes the steady-state loop stop
at exactly that iteration with the `fatal` outcome carrying the error
verbatim (one last blocking write of the current block, nothing more). -/
theorem playLoop_abort (rd : ResampledDecoder) (d : Decoder) (n : Nat) (e : DecoderError)
    (herr : (ResampledDecoder.decode_next_frame rd d).2 = Except.error e)
    (hne : e ≠ DecoderError.resetRequired) :
    playLoop rd d (n + 1) =
      ([Event.blockWritten (ResampledDecoder.current rd d)],
        (ResampledDecoder.decode_next_frame rd d).1.1,
        (ResampledDecoder.decode_next_frame rd d).1.2, PlayOutcome.fatal e) := by
  cases e with
  | resetRequired => exact absurd rfl hne
  | decodeFailed =>
      simp only [playLoop]
      rw [herr]

/-- A fatal play-loop outcome becomes a terminal result of the pass. -/
theorem afterPlay_fatal_intro (ev : List Event) (s : List Nat)
    (pl : List Event × ResampledDecoder × Decoder × PlayOutcome) (e : DecoderError)
    (h : pl.2.2.2 = PlayOutcome.fatal e) :
    (afterPlay ev s pl).res = AttemptResult.terminal (RunResult.fatal e) := by
  rcases pl with ⟨tr, rd2, d2, o⟩
  cases h
  rfl

/-- A terminal pass result aborts the retry loop immediately, unchanged
and with no further events (in particular no retry). -/
theorem runFile_terminal (cfg : OrchConfig) (i : Nat) (f : FileSource)
    (rd : ResampledDecoder) (ft : Bool) (spaces : List Nat) (fuel : Nat) (r : RunResult)
    (h : (fileAttempt cfg i f rd ft spaces).res = AttemptResult.terminal r) :
    (runFile cfg i f rd ft spaces fuel).result = some r ∧
    (runFile cfg i f rd ft spaces fuel).events = (fileAttempt cfg i f rd ft spaces).events := by
  cases fuel <;> simp only [runFile] <;> rw [h] <;> exact ⟨rfl, rfl⟩

/-- A terminal per-entry result aborts the queue loop: the remaining
sources are never processed and the result is propagated verbatim as the
whole session's outcome. -/
theorem runQueue_abort (cfg : OrchConfig) (f : FileSource) (fs : List FileSource) (i : Nat)
    (rd : ResampledDecoder) (ft : Bool) (spaces : List Nat) (res : RunResult)
    (h : (runFile cfg i f rd ft spaces cfg.resetFuel).result = some res) :
    runQueue cfg (f :: fs) i rd ft spaces =
      ((runFile cfg i f rd ft spaces cfg.resetFuel).events, res) := by
  simp only [runQueue]
  rw [h]

/-- C8, amended: for every queue and every run configuration, (i) every
reset retry reopens the same queue entry (a `resetRetry i` marker is
always immediately followed by `opened i`; the queue never advances on
`ResetRequired`), (ii) the sink's `start()` is called at most once in the
whole run, (iii) no prefill action ever happens after a reset retry
(prefill is never re-run), (iv) a terminal `ResetRequired` failure can
only arise from the prefill loop, which propagates decode errors instead
of retrying — the steady-state loop never surfaces `ResetRequired` — and
every other decode error aborts the loop and is propagated as a terminal
failure: (v) a non-`ResetRequired` error from `decode_next_frame` stops
the steady-state loop at that iteration with outcome `fatal e`, (vi)
that fatal outcome becomes the pass's terminal result, (vii) a terminal
pass result aborts the retry loop immediately with that result and no
retry, and (viii) it aborts the queue loop, becoming the whole session's
result verbatim with the remaining sources unprocessed. -/
theorem C8_amended (cfg : OrchConfig) (files : List FileSource) :
    resetRetryOk (orchestrate cfg files).1 = true ∧
    countStarted (orchestrate cfg files).1 ≤ 1 ∧
    noPrefillAfterRetry (orchestrate cfg files).1 = true ∧
    fatalResetOnlyFromPrefill (orchestrate cfg files).1 (orchestrate cfg files).2 = true ∧
    (∀ (rd : ResampledDecoder) (d : Decoder) (n : Nat) (e : DecoderError),
      (ResampledDecoder.decode_next_frame rd d).2 = Except.error e →
      e ≠ DecoderError.resetRequired →
      playLoop rd d (n + 1) =
        ([Event.blockWritten (ResampledDecoder.current rd d)],
          (ResampledDecoder.decode_next_frame rd d).1.1,
          (ResampledDecoder.decode_next_frame rd d).1.2, PlayOutcome.fatal e)) ∧
    (∀ (ev : List Event) (s : List Nat)
      (pl : List Event × ResampledDecoder × Decoder × PlayOutcome) (e : DecoderError),
      pl.2.2.2 = PlayOutcome.fatal e →
      (afterPlay ev s pl).res = AttemptResult.terminal (RunResult.fatal e)) ∧
    (∀ (i : Nat) (f : FileSource) (rd : ResampledDecoder) (ft : Bool) (spaces : List Nat)
      (fuel : Nat) (r : RunResult),
      (fileAttempt cfg i f rd ft spaces).res = AttemptResult.terminal r →
      (runFile cfg i f rd ft spaces fuel).result = some r ∧
      (runFile cfg i f rd ft spaces fuel).events = (fileAttempt cfg i f rd ft spaces).events) ∧
    (∀ (f : FileSource) (fs : List FileSource) (i : Nat) (rd : ResampledDecoder) (ft : Bool)
      (spaces : List Nat) (res : RunResult),
      (runFile cfg i f rd ft spaces cfg.resetFuel).result = some res →
      runQueue cfg (f :: fs) i rd ft spaces =
        ((runFile cfg i f rd ft spaces cfg.resetFuel).events, res)) := by
  refine ⟨?_, ?_, ?_, ?_, ?_, ?_, ?_, ?_⟩
  · have h := resetRetryOk_runQueue cfg files 0
      (ResampledDecoder.new cfg.defaultRate cfg.channels) true cfg.spaces []
    rw [List.append_nil] at h
    exact h
  · exact countStarted_runQueue_true cfg files 0 _ cfg.spaces
  · exact orchestrate_npar cfg files
  · rw [fatalResetOnlyFromPrefill]
    by_cases hres : (orchestrate cfg files).2 = RunResult.fatal DecoderError.resetRequired
    · have hmem := runQueue_fatalRR cfg files 0
        (ResampledDecoder.new cfg.defaultRate cfg.channels) true cfg.spaces hres
      rw [containsEv]
      have hany : (orchestrate cfg files).1.any (fun x =>
          decide (x = Event.prefillFailed DecoderError.resetRequired)) = true := by
        rw [List.any_eq_true]
        exact ⟨_, hmem, by simp⟩
      rw [hany]
      simp
    · simp [hres]
  · exact fun rd d n e herr hne => playLoop_abort rd d n e herr hne
  · exact fun ev s pl e h => afterPlay_fatal_intro ev s pl e h
  · exact fun i f rd ft spaces fuel r h => runFile_terminal cfg i f rd ft spaces fuel r h
  · exact fun f fs i rd ft spaces res h => runQueue_abort cfg f fs i rd ft spaces res h

/-- C8, witness for the amended theorem: on a concrete Bypass converter
and a decoder whose first pull raises a fatal (non-`ResetRequired`)
decode error, the steady-state loop aborts at the first iteration with
that error as the fatal outcome. -/
theorem C8_amended_w :
    playLoop (ResampledDecoder.new 44100 1) dFatal (2 + 1) =
      ([Event.blockWritten (ResampledDecoder.current (ResampledDecoder.new 44100 1) dFatal)],
        (ResampledDecoder.decode_next_frame (ResampledDecoder.new 44100 1) dFatal).1.1,
        (ResampledDecoder.decode_next_frame (ResampledDecoder.new 44100 1) dFatal).1.2,
        PlayOutcome.fatal DecoderError.decodeFailed) :=
  (C8_amended cfg8 []).2.2.2.2.1 (ResampledDecoder.new 44100 1) dFatal 2
    DecoderError.decodeFailed rfl (by decide)



/-- C8, counterexample: a source that raises `ResetRequired` while the
sink is still being prefilled is NOT retried — the error escapes the
orchestrator as a terminal failure, contradicting “never surfaces
ResetRequired to the caller”. -/
theorem C8_counterexample :
    (orchestrate cfg8 [f8]).2 = RunResult.fatal DecoderError.resetRequired := by rfl

end Dcal
